import Mathlib

set_option maxHeartbeats 1000000
set_option maxRecDepth 20000

/-! Shallow embedding of the firezone connlib core, for checking the natural
language specification against the code.

Embedded components:
- the TURN allocation state machine of rust/connlib/snownet/src/allocation.rs
  (Allocation, ChannelBindings, Channel),
- the WireGuard peer packet policy of rust/connlib/tunnel/src/peer.rs,
- the portal-event dispatch of rust/connlib/clients/shared/src/eventloop.rs.

Conventions: `Instant` and `Duration` are logical clocks in whole seconds,
modelled as `Nat` (`Instant::duration_since` saturates at zero exactly like
`Nat` subtraction). Socket addresses are opaque naturals tagged with their IP
version. STUN messages are modelled structurally (class, method, transaction
id, attribute list); the byte-level STUN codec is abstracted away, so
`handle_input` receives `Option Message` where `none` stands for a packet the
codec rejects. The `rand::random` transaction-id source is determinised as the
`nextTid` counter threaded through the state. `BTreeMap` is represented as an
association list kept sorted by key (`insertS` inserts in key order, matching
the map's key-ordered iteration). -/

inductive SocketAddr where
  | v4 (addr : Nat)
  | v6 (addr : Nat)
deriving DecidableEq, Repr

def SocketAddr.is_ipv4 : SocketAddr → Bool
  | .v4 _ => true
  | .v6 _ => false

inductive RelaySocket where
  | V4 (v4 : Nat)
  | V6 (v6 : Nat)
  | Dual (v4 v6 : Nat)
deriving DecidableEq, Repr

def RelaySocket.as_v4 : RelaySocket → Option Nat
  | .V4 a => some a
  | .V6 _ => none
  | .Dual a _ => some a

def RelaySocket.as_v6 : RelaySocket → Option Nat
  | .V4 _ => none
  | .V6 a => some a
  | .Dual _ a => some a

def RelaySocket.matches (s : RelaySocket) (candidate : SocketAddr) : Bool :=
  let matches_v4 := match s.as_v4 with
    | some a => decide (SocketAddr.v4 a = candidate)
    | none => false
  let matches_v6 := match s.as_v6 with
    | some a => decide (SocketAddr.v6 a = candidate)
    | none => false
  matches_v4 || matches_v6

inductive Candidate where
  | srflx (addr base : SocketAddr)
  | relayed (addr : SocketAddr)
deriving DecidableEq, Repr

def Candidate.addr : Candidate → SocketAddr
  | .srflx a _ => a
  | .relayed a => a

inductive Method where
  | binding
  | allocate
  | refresh
  | channelBind
  | otherMethod
deriving DecidableEq, Repr

inductive MessageClass where
  | request
  | indication
  | successResponse
  | errorResponse
deriving DecidableEq, Repr

inductive Attribute where
  | errorCode (code : Nat)
  | nonce (value : Nat)
  | realm (value : Nat)
  | username (value : Nat)
  | messageIntegrity
  | xorMappedAddress (address : SocketAddr)
  | xorRelayAddress (address : SocketAddr)
  | xorPeerAddress (address : SocketAddr)
  | channelNumber (value : Nat)
  | lifetime (seconds : Nat)
  | software
  | requestedTransport (protocol : Nat)
  | additionalAddressFamily
deriving DecidableEq, Repr

structure Message where
  msgClass : MessageClass
  method : Method
  transactionId : Nat
  attributes : List Attribute
deriving DecidableEq, Repr

def Message.get_error_code (m : Message) : Option Nat :=
  m.attributes.findSome? fun attr => match attr with
    | .errorCode c => some c
    | _ => none

def Message.get_nonce (m : Message) : Option Nat :=
  m.attributes.findSome? fun attr => match attr with
    | .nonce n => some n
    | _ => none

def Message.get_realm (m : Message) : Option Nat :=
  m.attributes.findSome? fun attr => match attr with
    | .realm r => some r
    | _ => none

def Message.get_lifetime (m : Message) : Option Nat :=
  m.attributes.findSome? fun attr => match attr with
    | .lifetime l => some l
    | _ => none

def Message.get_channel_number (m : Message) : Option Nat :=
  m.attributes.findSome? fun attr => match attr with
    | .channelNumber c => some c
    | _ => none

def Message.get_xor_peer_address (m : Message) : Option SocketAddr :=
  m.attributes.findSome? fun attr => match attr with
    | .xorPeerAddress a => some a
    | _ => none

def Message.is_authenticated (m : Message) : Bool :=
  m.attributes.any fun attr => match attr with
    | .messageIntegrity => true
    | _ => false

def srflx_candidate (localAddr : SocketAddr) (attr : Attribute) : Option Candidate :=
  match attr with
  | .xorMappedAddress a => some (.srflx a localAddr)
  | _ => none

def relay_candidate (isRightFamily : SocketAddr → Bool) (attr : Attribute) : Option Candidate :=
  match attr with
  | .xorRelayAddress a => if isRightFamily a then some (.relayed a) else none
  | _ => none

structure Credentials where
  username : Nat
  password : Nat
  realm : Nat
  nonce : Option Nat
deriving DecidableEq, Repr

inductive FreeReason where
  | AuthenticationError
  | NoResponseReceived
  | ProtocolFailure
deriving DecidableEq, Repr

inductive Event where
  | new (candidate : Candidate)
  | invalid (candidate : Candidate)
deriving DecidableEq, Repr

structure Transmit where
  src : Option SocketAddr
  dst : SocketAddr
  payload : Message
deriving DecidableEq, Repr

structure BackoffClock where
  now : Nat
deriving DecidableEq, Repr

/-- Modelled from the spec: rust/connlib/snownet/src/backoff.rs is not among the
provided sources. Per spec 4.1 the backoff is a deterministic exponential
backoff bound to a logical clock whose next_backoff returns none once
exhausted. Jitter is omitted and intervals are kept at least one second, so a
freshly queued retransmission is never immediately due again. -/
structure ExponentialBackoff where
  clock : BackoffClock
  startTime : Nat
  currentInterval : Nat
  maxElapsed : Nat
deriving DecidableEq, Repr

def BACKOFF_MAX_ELAPSED : Nat := 60

def backoffNew (now interval : Nat) : ExponentialBackoff :=
  { clock := { now := now }, startTime := now, currentInterval := interval,
    maxElapsed := BACKOFF_MAX_ELAPSED }

def ExponentialBackoff.next_backoff (b : ExponentialBackoff) :
    Option (Nat × ExponentialBackoff) :=
  if b.maxElapsed < b.clock.now - b.startTime then none
  else some (max b.currentInterval 1, { b with currentInterval := 2 * max b.currentInterval 1 })

/-- Modelled from the spec: rust/connlib/snownet/src/ringbuffer.rs is not among
the provided sources. Per spec 3 and 5 it is a bounded FIFO of peer addresses
(capacity 100) that silently drops the oldest entry on overflow. -/
structure RingBuffer where
  capacity : Nat
  items : List SocketAddr
deriving DecidableEq, Repr

def RingBuffer.push (r : RingBuffer) (x : SocketAddr) : RingBuffer :=
  if r.capacity ≤ r.items.length then { r with items := r.items.drop 1 ++ [x] }
  else { r with items := r.items ++ [x] }

def RingBuffer.pop (r : RingBuffer) : Option SocketAddr × RingBuffer :=
  match r.items with
  | [] => (none, r)
  | x :: rest => (some x, { r with items := rest })

def RingBuffer.extend (r : RingBuffer) (x : Option SocketAddr) : RingBuffer :=
  match x with
  | some p => r.push p
  | none => r

def RingBuffer.clear (r : RingBuffer) : RingBuffer :=
  { r with items := [] }

/-- Modelled from the spec: rust/connlib/snownet/src/channel_data.rs is not among
the provided sources. Per spec 4.2, encoding prepends a 4-byte header holding
the channel number and the payload length, both as u16 big-endian. -/
def channel_data_encode (channel : Nat) (payload : List Nat) : List Nat :=
  channel / 256 % 256 :: channel % 256 ::
    payload.length / 256 % 256 :: payload.length % 256 :: payload

/-- Modelled from the spec: decoding parses the 4-byte header, validates that
the advertised length does not exceed the buffer, and returns the channel
number together with the payload slice of that length. -/
def channel_data_decode (packet : List Nat) : Option (Nat × List Nat) :=
  match packet with
  | b0 :: b1 :: b2 :: b3 :: rest =>
    let len := b2 * 256 + b3
    if rest.length < len then none else some (b0 * 256 + b1, rest.take len)
  | _ => none

def lookupS {α : Type} : List (Nat × α) → Nat → Option α
  | [], _ => none
  | (k, v) :: rest, key => if k = key then some v else lookupS rest key

def insertS {α : Type} (key : Nat) (v : α) : List (Nat × α) → List (Nat × α)
  | [] => [(key, v)]
  | (k, w) :: rest =>
    if key < k then (key, v) :: (k, w) :: rest
    else if key = k then (key, v) :: rest
    else (k, w) :: insertS key v rest

def removeS {α : Type} (key : Nat) (l : List (Nat × α)) : List (Nat × α) :=
  l.filter fun p => decide (p.1 ≠ key)

structure Channel where
  peer : SocketAddr
  bound : Bool
  bound_at : Nat
  last_received : Nat
deriving DecidableEq, Repr

def CHANNEL_LIFETIME : Nat := 600

def CHANNEL_REBIND_TIMEOUT : Nat := 300

def Channel.age (c : Channel) (now : Nat) : Nat :=
  now - c.bound_at

def Channel.no_activity (c : Channel) : Bool :=
  decide (c.last_received = c.bound_at)

def Channel.can_rebind (c : Channel) (now : Nat) : Bool :=
  c.no_activity && decide (CHANNEL_LIFETIME + CHANNEL_REBIND_TIMEOUT ≤ c.age now)

def Channel.connected_to_peer (c : Channel) (peer : SocketAddr) (now : Nat) : Bool :=
  decide (c.peer = peer) && decide (c.age now < CHANNEL_LIFETIME) && c.bound

def Channel.bound_to_peer (c : Channel) (peer : SocketAddr) (now : Nat) : Bool :=
  decide (c.peer = peer)
    && decide (c.age now < CHANNEL_LIFETIME + CHANNEL_REBIND_TIMEOUT)
    && c.bound

def Channel.needs_refresh (c : Channel) (now : Nat) : Bool :=
  if c.age now < CHANNEL_LIFETIME / 2 then false
  else if c.no_activity then false
  else true

def Channel.set_confirmed (c : Channel) (now : Nat) : Channel :=
  { c with bound := true, bound_at := now, last_received := now }

def Channel.record_received (c : Channel) (now : Nat) : Channel :=
  { c with last_received := now }

structure ChannelBindings where
  inner : List (Nat × Channel)
  next_channel : Nat
deriving DecidableEq, Repr

def FIRST_CHANNEL : Nat := 0x4000

def LAST_CHANNEL : Nat := 0x4FFF

def idsFrom (lo hi : Nat) : List Nat :=
  (List.range (hi - lo)).map (lo + ·)

def ChannelBindings.try_decode (cb : ChannelBindings) (packet : List Nat) (now : Nat) :
    Option (SocketAddr × List Nat) × ChannelBindings :=
  match channel_data_decode packet with
  | none => (none, cb)
  | some (channel_number, payload) =>
    match lookupS cb.inner channel_number with
    | none => (none, cb)
    | some channel =>
      if channel.bound then
        (some (channel.peer, payload),
         { cb with inner := cb.inner.map fun p =>
             if p.1 = channel_number then (p.1, p.2.record_received now) else p })
      else (none, cb)

def ChannelBindings.next_channel_number (cb : ChannelBindings) (now : Nat) : Option Nat :=
  (idsFrom cb.next_channel (LAST_CHANNEL + 1) ++ idsFrom FIRST_CHANNEL cb.next_channel).find?
    fun number =>
      match lookupS cb.inner number with
      | some channel => channel.can_rebind now
      | none => true

def ChannelBindings.connected_channel_to_peer (cb : ChannelBindings) (peer : SocketAddr)
    (now : Nat) : Option Nat :=
  (cb.inner.find? fun p => p.2.connected_to_peer peer now).map Prod.fst

def ChannelBindings.bound_channel_to_peer (cb : ChannelBindings) (peer : SocketAddr)
    (now : Nat) : Option Nat :=
  (cb.inner.find? fun p => p.2.bound_to_peer peer now).map Prod.fst

def ChannelBindings.new_channel_to_peer (cb : ChannelBindings) (peer : SocketAddr)
    (now : Nat) : Option Nat × ChannelBindings :=
  match cb.bound_channel_to_peer peer now with
  | some number => (some number, cb)
  | none =>
    match cb.next_channel_number now with
    | none => (none, cb)
    | some number =>
      let nxt := if number = LAST_CHANNEL then FIRST_CHANNEL else number + 1
      (some number,
       { inner := insertS number
           { peer := peer, bound := false, bound_at := now, last_received := now } cb.inner,
         next_channel := nxt })

def ChannelBindings.channels_to_refresh (cb : ChannelBindings) (now : Nat)
    (is_inflight : Nat → Bool) : List (Nat × SocketAddr) :=
  (((cb.inner.filter fun p => p.2.needs_refresh now).filter
      fun p => !is_inflight p.1).map fun p => (p.1, p.2.peer))

def ChannelBindings.handle_failed_binding (cb : ChannelBindings) (c : Nat) : ChannelBindings :=
  { cb with inner := removeS c cb.inner }

def ChannelBindings.set_confirmed (cb : ChannelBindings) (c : Nat) (now : Nat) :
    Bool × ChannelBindings :=
  match lookupS cb.inner c with
  | none => (false, cb)
  | some _ =>
    (true, { cb with inner := cb.inner.map fun p =>
        if p.1 = c then (p.1, p.2.set_confirmed now) else p })

def ChannelBindings.clear (cb : ChannelBindings) : ChannelBindings :=
  { cb with inner := [] }

structure SentReq where
  dst : SocketAddr
  message : Message
  sentAt : Nat
  backoffDur : Nat
  backoff : ExponentialBackoff
deriving DecidableEq, Repr

structure Allocation where
  server : RelaySocket
  active_socket : Option SocketAddr
  ip4_srflx_candidate : Option Candidate
  ip6_srflx_candidate : Option Candidate
  ip4_allocation : Option Candidate
  ip6_allocation : Option Candidate
  allocation_lifetime : Option (Nat × Nat)
  buffered_transmits : List Transmit
  events : List Event
  sent_requests : List (Nat × SentReq)
  channel_bindings : ChannelBindings
  buffered_channel_bindings : RingBuffer
  last_now : Nat
  credentials : Option Credentials
  explicit_failure : Option FreeReason
  nextTid : Nat
deriving DecidableEq, Repr

def REQUEST_TIMEOUT : Nat := 1

def make_binding_request (tid : Nat) : Message :=
  { msgClass := .request, method := .binding, transactionId := tid,
    attributes := [.software] }

def make_allocate_request (tid : Nat) : Message :=
  { msgClass := .request, method := .allocate, transactionId := tid,
    attributes := [.requestedTransport 17, .additionalAddressFamily, .software] }

def make_refresh_request (tid : Nat) : Message :=
  { msgClass := .request, method := .refresh, transactionId := tid,
    attributes := [.requestedTransport 17, .additionalAddressFamily, .software] }

def make_delete_allocation_request (tid : Nat) : Message :=
  let m := make_refresh_request tid
  { m with attributes := m.attributes ++ [.lifetime 0] }

def make_channel_bind_request (target : SocketAddr) (channel : Nat) (tid : Nat) : Message :=
  { msgClass := .request, method := .channelBind, transactionId := tid,
    attributes := [.xorPeerAddress target, .channelNumber channel, .software] }

def authenticate (message : Message) (credentials : Credentials) (tid : Nat) : Message :=
  let kept := message.attributes.filter fun attr =>
    match attr with
    | .nonce _ => false
    | .messageIntegrity => false
    | .realm _ => false
    | .username _ => false
    | _ => true
  { msgClass := .request
    method := message.method
    transactionId := tid
    attributes := (kept ++ [.username credentials.username, .realm credentials.realm]
        ++ credentials.nonce.toList.map Attribute.nonce) ++ [.messageIntegrity] }

def update_candidate (maybe_new : Option Candidate) (current : Option Candidate)
    (events : List Event) : Option Candidate × List Event :=
  match maybe_new, current with
  | some n, some cur =>
    if n ≠ cur then (some n, events ++ [.new n, .invalid cur]) else (some cur, events)
  | some n, none => (some n, events ++ [.new n])
  | none, cur => (cur, events)

def Allocation.current_relay_candidates (a : Allocation) : List Candidate :=
  a.ip4_allocation.toList ++ a.ip6_allocation.toList

def Allocation.has_allocation (a : Allocation) : Bool :=
  a.ip4_allocation.isSome || a.ip6_allocation.isSome

def Allocation.can_relay_to (a : Allocation) (socket : SocketAddr) : Bool :=
  match socket with
  | .v4 _ => a.ip4_allocation.isSome
  | .v6 _ => a.ip6_allocation.isSome

def Allocation.channel_binding_in_flight_by_number (a : Allocation) (channel : Nat) : Bool :=
  a.sent_requests.any fun p =>
    decide (p.2.message.method = Method.channelBind)
      && decide (p.2.message.get_channel_number = some channel)

def Allocation.channel_binding_in_flight_by_peer (a : Allocation) (peer : SocketAddr) : Bool :=
  (((a.sent_requests.filter fun p => decide (p.2.message.method = Method.channelBind)).filterMap
      fun p => p.2.message.get_xor_peer_address)
    ++ a.buffered_channel_bindings.items).any fun q => decide (q = peer)

def Allocation.allocate_in_flight (a : Allocation) : Bool :=
  a.sent_requests.any fun p => decide (p.2.message.method = Method.allocate)

def Allocation.refresh_in_flight (a : Allocation) : Bool :=
  a.sent_requests.any fun p => decide (p.2.message.method = Method.refresh)

def Allocation.refresh_allocation_at (a : Allocation) : Option Nat :=
  a.allocation_lifetime.map fun rl => rl.1 + rl.2 / 2

def Allocation.allocation_expires_at (a : Allocation) : Option Nat :=
  a.allocation_lifetime.map fun rl => rl.1 + rl.2

def earliest : Option Nat → Option Nat → Option Nat
  | some x, some y => some (min x y)
  | some x, none => some x
  | none, y => y

def Allocation.poll_timeout (a : Allocation) : Option Nat :=
  let base := if a.refresh_in_flight then none else a.refresh_allocation_at
  a.sent_requests.foldl (fun acc p => earliest acc (some (p.2.sentAt + p.2.backoffDur))) base

def Allocation.is_suspended (a : Allocation) : Bool :=
  !a.has_allocation && a.sent_requests.isEmpty && a.buffered_transmits.isEmpty
    && a.poll_timeout.isNone

def Allocation.received_any_response (a : Allocation) : Bool :=
  a.active_socket.isSome

def Allocation.has_credentials (a : Allocation) : Bool :=
  a.credentials.isSome

def Allocation.update_now (a : Allocation) (now : Nat) : Allocation :=
  if now ≤ a.last_now then a
  else
    { a with
      last_now := now
      sent_requests := a.sent_requests.map fun p =>
        (p.1, { p.2 with backoff := { p.2.backoff with clock := { now := now } } }) }

def Allocation.invalidate_allocation (a : Allocation) : Allocation :=
  { a with
    ip4_allocation := none
    ip6_allocation := none
    events := a.events ++ a.current_relay_candidates.map Event.invalid
    channel_bindings := a.channel_bindings.clear
    allocation_lifetime := none
    sent_requests := [] }

def Allocation.queue (a : Allocation) (dst : SocketAddr) (message : Message)
    (backoff : Option ExponentialBackoff) : Bool × Allocation :=
  let b := backoff.getD (backoffNew a.last_now REQUEST_TIMEOUT)
  match b.next_backoff with
  | none => (false, a)
  | some db =>
    (true,
     { a with
       sent_requests := insertS message.transactionId
         { dst := dst, message := message, sentAt := a.last_now,
           backoffDur := db.1, backoff := db.2 } a.sent_requests
       buffered_transmits := a.buffered_transmits
         ++ [{ src := none, dst := dst, payload := message }] })

def Allocation.authenticate_and_queue (a : Allocation) (message : Message)
    (backoff : Option ExponentialBackoff) : Bool × Allocation :=
  match a.active_socket with
  | none => (false, a)
  | some dst =>
    match a.credentials with
    | none => (false, a)
    | some credentials =>
      Allocation.queue { a with nextTid := a.nextTid + 1 } dst
        (authenticate message credentials a.nextTid) backoff

def Allocation.send_binding_requests (a : Allocation) : Allocation :=
  let a1 := match a.server.as_v4 with
    | some v4 =>
      (Allocation.queue { a with nextTid := a.nextTid + 1 } (.v4 v4)
        (make_binding_request a.nextTid) none).2
    | none => a
  match a1.server.as_v6 with
  | some v6 =>
    (Allocation.queue { a1 with nextTid := a1.nextTid + 1 } (.v6 v6)
      (make_binding_request a1.nextTid) none).2
  | none => a1

def Allocation.new (server : RelaySocket) (username password realm : Nat) (now : Nat) :
    Allocation :=
  Allocation.send_binding_requests
    { server := server
      active_socket := none
      ip4_srflx_candidate := none
      ip6_srflx_candidate := none
      ip4_allocation := none
      ip6_allocation := none
      allocation_lifetime := none
      buffered_transmits := []
      events := []
      sent_requests := []
      channel_bindings := { inner := [], next_channel := FIRST_CHANNEL }
      buffered_channel_bindings := { capacity := 100, items := [] }
      last_now := now
      credentials := some ⟨username, password, realm, none⟩
      explicit_failure := none
      nextTid := 0 }

def Allocation.refresh (a : Allocation) (now : Nat) : Allocation :=
  let a := a.update_now now
  if !a.has_allocation && a.allocate_in_flight then a
  else if a.is_suspended then
    Allocation.send_binding_requests { a with active_socket := none }
  else (a.authenticate_and_queue (make_refresh_request 0) none).2

def Allocation.bind_channel (a : Allocation) (peer : SocketAddr) (now : Nat) : Allocation :=
  if a.is_suspended then a
  else
    let a := a.update_now now
    if (a.channel_bindings.connected_channel_to_peer peer now).isSome then a
    else if a.channel_binding_in_flight_by_peer peer then a
    else if !a.has_allocation then
      { a with buffered_channel_bindings := a.buffered_channel_bindings.push peer }
    else if !a.can_relay_to peer then a
    else
      match a.channel_bindings.new_channel_to_peer peer now with
      | (none, cb) => { a with channel_bindings := cb }
      | (some channel, cb) =>
        (Allocation.authenticate_and_queue { a with channel_bindings := cb }
          (make_channel_bind_request peer channel 0) none).2

def dueAt (now : Nat) (e : SentReq) : Bool :=
  decide (e.backoffDur ≤ now - e.sentAt)

def Allocation.retransmitLoop (now : Nat) : Nat → Allocation → Allocation
  | 0, a => a
  | fuel + 1, a =>
    match a.sent_requests.find? fun p => dueAt now p.2 with
    | none => a
    | some te =>
      let a := { a with sent_requests := removeS te.1 a.sent_requests }
      if te.2.message.method = Method.binding then
        Allocation.retransmitLoop now fuel (a.queue te.2.dst te.2.message (some te.2.backoff)).2
      else
        let qa := a.authenticate_and_queue te.2.message (some te.2.backoff)
        let a :=
          if !qa.1 && decide (te.2.message.method = Method.refresh) then
            Allocation.invalidate_allocation { qa.2 with active_socket := none }
          else qa.2
        Allocation.retransmitLoop now fuel a

def Allocation.handle_timeout (a : Allocation) (now : Nat) : Allocation :=
  let a := a.update_now now
  let a := match a.allocation_expires_at with
    | some expires_at => if expires_at ≤ now then a.invalidate_allocation else a
    | none => a
  let a := Allocation.retransmitLoop now a.sent_requests.length a
  let a := match a.refresh_allocation_at with
    | some refresh_at =>
      if decide (refresh_at ≤ now) && !a.refresh_in_flight then
        (a.authenticate_and_queue (make_refresh_request 0) none).2
      else a
    | none => a
  let refreshList := a.channel_bindings.channels_to_refresh now
    fun n => a.channel_binding_in_flight_by_number n
  refreshList.foldl
    (fun acc p => (acc.authenticate_and_queue (make_channel_bind_request p.2 p.1 0) none).2) a

def Allocation.drainBufferedBindings (now : Nat) : Nat → Allocation → Allocation
  | 0, a => a
  | fuel + 1, a =>
    match a.buffered_channel_bindings.pop with
    | (none, _) => a
    | (some peer, rest) =>
      Allocation.drainBufferedBindings now fuel
        (Allocation.bind_channel { a with buffered_channel_bindings := rest } peer now)

def Allocation.handleErrorResponse (a : Allocation) (original_request msg : Message)
    (code : Nat) : Bool × Allocation :=
  if code = 401 ∧ original_request.get_nonce.isSome then
    (true, Allocation.invalidate_allocation { a with credentials := none })
  else if code = 401 ∨ code = 438 then
    match a.credentials with
    | none => (true, a)
    | some credentials =>
      let credentials := match msg.get_nonce with
        | some n => { credentials with nonce := some n }
        | none => credentials
      let a := { a with credentials := some credentials }
      match msg.get_realm with
      | some offered =>
        if offered ≠ credentials.realm then (true, a)
        else (true, (a.authenticate_and_queue original_request none).2)
      | none => (true, (a.authenticate_and_queue original_request none).2)
  else if code = 437 then
    let a := a.invalidate_allocation
    match msg.method with
    | .allocate => (true, (a.authenticate_and_queue (make_delete_allocation_request 0) none).2)
    | .refresh => (true, (a.authenticate_and_queue (make_allocate_request 0) none).2)
    | .channelBind =>
      let a := (a.authenticate_and_queue (make_allocate_request 0) none).2
      (true, { a with buffered_channel_bindings :=
        a.buffered_channel_bindings.extend original_request.get_xor_peer_address })
    | _ => (true, a)
  else if code = 420 then
    (true, { a with explicit_failure := some FreeReason.ProtocolFailure })
  else
    match msg.method with
    | .allocate =>
      (true, { a with buffered_channel_bindings := a.buffered_channel_bindings.clear })
    | .channelBind =>
      match original_request.get_channel_number with
      | none => (true, a)
      | some channel =>
        match original_request.get_xor_peer_address with
        | none => (true, a)
        | some _ =>
          (true, { a with channel_bindings := a.channel_bindings.handle_failed_binding channel })
    | _ => (true, a)

def Allocation.handleSuccessResponse (a : Allocation) (original_dst localAddr : SocketAddr)
    (original_request msg : Message) (now : Nat) : Bool × Allocation :=
  match msg.method with
  | .binding =>
    let maybe_candidate := msg.attributes.findSome? (srflx_candidate localAddr)
    let a :=
      match original_dst with
      | .v4 _ =>
        let ce := update_candidate maybe_candidate a.ip4_srflx_candidate a.events
        { a with ip4_srflx_candidate := ce.1, events := ce.2 }
      | .v6 _ =>
        let ce := update_candidate maybe_candidate a.ip6_srflx_candidate a.events
        { a with ip6_srflx_candidate := ce.1, events := ce.2 }
    match a.active_socket with
    | some _ => (true, a)
    | none =>
      let a := { a with active_socket := some original_dst }
      if a.has_allocation then
        (true, (a.authenticate_and_queue (make_refresh_request 0) none).2)
      else
        (true, (a.authenticate_and_queue (make_allocate_request 0) none).2)
  | .allocate =>
    match msg.get_lifetime with
    | none => (true, a)
    | some lifetime =>
      let maybe_ip4 := msg.attributes.findSome? (relay_candidate SocketAddr.is_ipv4)
      let maybe_ip6 := msg.attributes.findSome? (relay_candidate fun s => !s.is_ipv4)
      if maybe_ip4.isNone && maybe_ip6.isNone then (true, a)
      else
        let a := { a with allocation_lifetime := some (now, lifetime) }
        let ce4 := update_candidate maybe_ip4 a.ip4_allocation a.events
        let a := { a with ip4_allocation := ce4.1, events := ce4.2 }
        let ce6 := update_candidate maybe_ip6 a.ip6_allocation a.events
        let a := { a with ip6_allocation := ce6.1, events := ce6.2 }
        (true, Allocation.drainBufferedBindings now a.buffered_channel_bindings.items.length a)
  | .refresh =>
    match msg.get_lifetime with
    | none => (true, a)
    | some lifetime =>
      if lifetime = 0 then
        (true, (a.authenticate_and_queue (make_allocate_request 0) none).2)
      else (true, { a with allocation_lifetime := some (now, lifetime) })
  | .channelBind =>
    match original_request.get_channel_number with
    | none => (true, a)
    | some channel =>
      (true, { a with channel_bindings := (a.channel_bindings.set_confirmed channel now).2 })
  | _ => (true, a)

def Allocation.handle_input (a : Allocation) (sender localAddr : SocketAddr)
    (packet : Option Message) (now : Nat) : Bool × Allocation :=
  let a := a.update_now now
  if !a.server.matches sender then (false, a)
  else
    match packet with
    | none => (false, a)
    | some msg =>
      match lookupS a.sent_requests msg.transactionId with
      | none => (false, a)
      | some entry =>
        let a := { a with sent_requests := removeS msg.transactionId a.sent_requests }
        match msg.get_error_code with
        | some code => a.handleErrorResponse entry.message msg code
        | none =>
          if msg.msgClass ≠ MessageClass.successResponse then (true, a)
          else a.handleSuccessResponse entry.dst localAddr entry.message msg now

def Allocation.ip4_socket (a : Allocation) : Option SocketAddr :=
  a.ip4_allocation.map Candidate.addr

def Allocation.ip6_socket (a : Allocation) : Option SocketAddr :=
  a.ip6_allocation.map Candidate.addr

def Allocation.decapsulate (a : Allocation) (sender : SocketAddr) (packet : List Nat)
    (now : Nat) : Option (SocketAddr × List Nat × SocketAddr) × Allocation :=
  if !a.server.matches sender then (none, a)
  else
    match a.channel_bindings.try_decode packet now with
    | (none, cb) => (none, { a with channel_bindings := cb })
    | (some pp, cb) =>
      let a := { a with channel_bindings := cb }
      match pp.1 with
      | .v4 _ =>
        match a.ip4_socket with
        | none => (none, a)
        | some s => (some (pp.1, pp.2, s), a)
      | .v6 _ =>
        match a.ip6_socket with
        | none => (none, a)
        | some s => (some (pp.1, pp.2, s), a)

def Allocation.poll_event (a : Allocation) : Option Event × Allocation :=
  match a.events with
  | [] => (none, a)
  | e :: rest => (some e, { a with events := rest })

def Allocation.poll_transmit (a : Allocation) : Option Transmit × Allocation :=
  match a.buffered_transmits with
  | [] => (none, a)
  | t :: rest => (some t, { a with buffered_transmits := rest })

def Allocation.can_be_freed (a : Allocation) : Option FreeReason × Allocation :=
  match a.explicit_failure with
  | some reason => (some reason, { a with explicit_failure := none })
  | none =>
    let pending_work := !a.events.isEmpty || !a.buffered_transmits.isEmpty
      || !a.sent_requests.isEmpty
    if !pending_work && !a.received_any_response then (some .NoResponseReceived, a)
    else if !pending_work && !a.has_credentials then (some .AuthenticationError, a)
    else (none, a)

inductive IpAddr where
  | v4 (addr : Nat)
  | v6 (addr : Nat)
deriving DecidableEq, Repr

def IpAddr.is_ipv4 : IpAddr → Bool
  | .v4 _ => true
  | .v6 _ => false

structure IpNetwork where
  isV6 : Bool
  base : Nat
  prefixLen : Nat
deriving DecidableEq, Repr

def IpNetwork.contains (n : IpNetwork) (a : IpAddr) : Bool :=
  match a with
  | .v4 x =>
    !n.isV6 && decide (x / 2 ^ (32 - n.prefixLen) = n.base / 2 ^ (32 - n.prefixLen))
  | .v6 x =>
    n.isV6 && decide (x / 2 ^ (128 - n.prefixLen) = n.base / 2 ^ (128 - n.prefixLen))

def longest_match {α : Type} (table : List (IpNetwork × α)) (addr : IpAddr) :
    Option (IpNetwork × α) :=
  table.foldl
    (fun best entry =>
      if entry.1.contains addr then
        match best with
        | none => some entry
        | some b => if b.1.prefixLen < entry.1.prefixLen then some entry else best
      else best)
    none

structure ResourceDescriptionDns where
  id : Nat
  address : Nat
  ipv4 : Nat
  ipv6 : Nat
deriving DecidableEq, Repr

structure ResourceDescriptionCidr where
  id : Nat
  address : IpNetwork
deriving DecidableEq, Repr

inductive ResourceDescription where
  | dns (r : ResourceDescriptionDns)
  | cidr (r : ResourceDescriptionCidr)
deriving DecidableEq, Repr

/-- Modelled from the spec: rust/connlib/tunnel/src/resource_table.rs is not
among the provided sources. Per spec 3 the table indexes resources by network
and get_by_ip performs a longest-prefix lookup; entries carry an expiry
timestamp. The table type admits arbitrary network-to-resource associations,
exactly as the underlying IpNetworkTable does. -/
abbrev ResourceTable := List (IpNetwork × (ResourceDescription × Nat))

def get_by_ip (t : ResourceTable) (ip : IpAddr) : Option (ResourceDescription × Nat) :=
  (longest_match t ip).map Prod.snd

structure IpPacketM where
  isV6 : Bool
  source : IpAddr
  dest : IpAddr
deriving DecidableEq, Repr

def IpPacketM.set_dst (p : IpPacketM) (d : IpAddr) : IpPacketM :=
  { p with dest := d }

inductive WgError where
  | protocolErr
deriving DecidableEq, Repr

inductive PeerError where
  | ControlProtocolError
  | BadPacket
  | InvalidSource
  | InvalidResource
  | WireGuard (e : WgError)
deriving DecidableEq, Repr

inductive TunnResult where
  | done
  | errTunn (e : WgError)
  | writeToNetwork (bytes : List Nat)
  | writeToTunnelV4 (packet : Option IpPacketM) (addr : IpAddr)
  | writeToTunnelV6 (packet : Option IpPacketM) (addr : IpAddr)
deriving DecidableEq, Repr

inductive WriteTo where
  | network (bytes : List Nat)
  | resource (packet : IpPacketM)
deriving DecidableEq, Repr

structure Peer where
  allowed_ips : List (IpNetwork × Unit)
  resources : Option ResourceTable
  translated_resource_addresses : List (IpAddr × Nat)
deriving DecidableEq, Repr

def Peer.is_allowed (p : Peer) (addr : IpAddr) : Bool :=
  (longest_match p.allowed_ips addr).isSome

def get_matching_version_ip (addr ip : IpAddr) : Option IpAddr :=
  if (addr.is_ipv4 && ip.is_ipv4) || (!addr.is_ipv4 && !ip.is_ipv4) then some ip else none

/-- DNS name resolution happens through the ambient resolver
(std::net::ToSocketAddrs) in the source; it is passed in here as the
function argument resolve. -/
def translate_addr (resolve : Nat → List IpAddr) (r : ResourceDescriptionDns)
    (dst : IpAddr) : Except PeerError IpAddr :=
  match (resolve r.address).findSome? fun ip => get_matching_version_ip dst ip with
  | some ip => .ok ip
  | none => .error .InvalidResource

def insertTRA (key : IpAddr) (v : Nat) (l : List (IpAddr × Nat)) : List (IpAddr × Nat) :=
  (key, v) :: l.filter fun p => decide (p.1 ≠ key)

def Peer.decapsulateTunnel (p : Peer) (resolve : Nat → List IpAddr)
    (packet : Option IpPacketM) (dst : IpAddr) : Except PeerError (Option WriteTo) × Peer :=
  if !p.is_allowed dst then (.ok none, p)
  else
    match packet with
    | none => (.error .BadPacket, p)
    | some pkt =>
      match p.resources with
      | none => (.ok (some (.resource pkt)), p)
      | some resources =>
        match get_by_ip resources pkt.dest with
        | none => (.ok none, p)
        | some resource =>
          match resource.1 with
          | .dns r =>
            match translate_addr resolve r dst with
            | .error e => (.error e, p)
            | .ok dst_addr =>
              (.ok (some (.resource (pkt.set_dst dst_addr))),
               { p with translated_resource_addresses :=
                   insertTRA dst_addr r.id p.translated_resource_addresses })
          | .cidr r =>
            if !r.address.contains pkt.dest then (.error .InvalidSource, p)
            else
              match get_matching_version_ip dst pkt.dest with
              | none => (.error .InvalidResource, p)
              | some ip => (.ok (some (.resource (pkt.set_dst ip))), p)

def Peer.decapsulate (p : Peer) (resolve : Nat → List IpAddr) (tr : TunnResult) :
    Except PeerError (Option WriteTo) × Peer :=
  match tr with
  | .done => (.ok none, p)
  | .errTunn e => (.error (.WireGuard e), p)
  | .writeToNetwork bytes => (.ok (some (.network bytes)), p)
  | .writeToTunnelV4 packet addr => p.decapsulateTunnel resolve packet addr
  | .writeToTunnelV6 packet addr => p.decapsulateTunnel resolve packet addr

inductive IngressMessage where
  | configChanged
  | iceCandidates (gateway : Nat) (candidates : List Nat)
  | init (resources : List Nat)
  | resourceCreatedOrUpdated (resource : Nat)
  | resourceDeleted (resource : Nat)
  | relaysPresence
  | invalidateIceCandidates (gateway : Nat) (candidates : List Nat)
deriving DecidableEq, Repr

inductive RoutingOutcome where
  | ok
  | noTurnServers
  | otherFailure
deriving DecidableEq, Repr

inductive ReplyMessage where
  | connectConnectionAccepted (gateway resource : Nat)
  | connectResourceAccepted (resource : Nat)
  | connectionDetails (resource gateway site : Nat) (outcome : RoutingOutcome)
deriving DecidableEq, Repr

inductive ErrorReply where
  | offline
  | disabled
  | unmatchedTopic
  | invalidVersion
  | notFound
  | otherReply
deriving DecidableEq, Repr

inductive PortalEvent where
  | inboundMessage (msg : IngressMessage)
  | successResponse (res : ReplyMessage)
  | errorResponse (res : ErrorReply) (req_id : Nat) (topic : Nat)
  | heartbeatSent
  | joinedRoom (topic : Nat)
  | closed
deriving DecidableEq, Repr

inductive Effect where
  | tunnelUpdateInterfaceConfig
  | tunnelAddIceCandidate (gateway candidate : Nat)
  | tunnelRemoveIceCandidate (gateway candidate : Nat)
  | tunnelSetResources (resources : List Nat)
  | tunnelUpdateRelays
  | tunnelAddResource (resource : Nat)
  | tunnelRemoveResource (resource : Nat)
  | tunnelAcceptAnswer (gateway resource : Nat)
  | tunnelOnRoutingDetails (resource gateway site : Nat)
  | portalReconnect
  | portalJoin (topic : Nat)
deriving DecidableEq, Repr

/-- Outcome of handling one portal event: either the list of calls made into
the tunnel and portal collaborators, or an abort of the process. The
variant panics models the unimplemented arm in the source, which aborts the
event loop. -/
inductive HandleResult where
  | ok (effects : List Effect)
  | panics
deriving DecidableEq, Repr

def HandleResult.isPanic : HandleResult → Bool
  | .ok _ => false
  | .panics => true

def handle_portal_inbound_message : IngressMessage → List Effect
  | .configChanged => [.tunnelUpdateInterfaceConfig]
  | .iceCandidates gateway candidates => candidates.map (.tunnelAddIceCandidate gateway)
  | .init resources => [.tunnelUpdateInterfaceConfig, .tunnelSetResources resources,
      .tunnelUpdateRelays]
  | .resourceCreatedOrUpdated r => [.tunnelAddResource r]
  | .resourceDeleted r => [.tunnelRemoveResource r]
  | .relaysPresence => [.tunnelUpdateRelays]
  | .invalidateIceCandidates gateway candidates =>
      candidates.map (.tunnelRemoveIceCandidate gateway)

def handle_portal_success_reply : ReplyMessage → List Effect
  | .connectConnectionAccepted gateway resource => [.tunnelAcceptAnswer gateway resource]
  | .connectResourceAccepted _ => []
  | .connectionDetails resource gateway site outcome =>
    match outcome with
    | .noTurnServers => [.tunnelOnRoutingDetails resource gateway site, .portalReconnect]
    | _ => [.tunnelOnRoutingDetails resource gateway site]

def handle_portal_error_reply (res : ErrorReply) (topic : Nat) : List Effect :=
  match res with
  | .unmatchedTopic => [.portalJoin topic]
  | _ => []

def handle_portal_event : PortalEvent → HandleResult
  | .inboundMessage msg => .ok (handle_portal_inbound_message msg)
  | .successResponse res => .ok (handle_portal_success_reply res)
  | .errorResponse res _ topic => .ok (handle_portal_error_reply res topic)
  | .heartbeatSent => .ok []
  | .joinedRoom _ => .ok []
  | .closed => .panics

/-- Modelled from the spec: spec 8 bounds round-trip payloads by the MTU; the
concrete constant ip_packet::MAX_DATAGRAM_PAYLOAD is not among the provided
sources, so a standard Ethernet MTU stands in (any value below 2^16 - 4 gives
the same theorems). -/
def MTU : Nat := 1500

/-! Concrete states used by the witness and counterexample theorems. -/

def c6State : Allocation :=
  (((Allocation.new (RelaySocket.V4 7) 1 2 3 0).handle_timeout 100).poll_transmit).2

def samplePeerDrop : Peer :=
  { allowed_ips := [({ isV6 := false, base := 0, prefixLen := 32 }, ())]
    resources := none
    translated_resource_addresses := [] }

def samplePacket : IpPacketM :=
  { isV6 := false, source := IpAddr.v4 1, dest := IpAddr.v4 99 }

def sampleCidrTable : ResourceTable :=
  [({ isV6 := false, base := 0, prefixLen := 0 },
    (ResourceDescription.cidr { id := 5, address := { isV6 := false, base := 1000, prefixLen := 32 } }, 77))]

def samplePeerGw : Peer :=
  { allowed_ips := [({ isV6 := false, base := 0, prefixLen := 0 }, ())]
    resources := some sampleCidrTable
    translated_resource_addresses := [] }

def samplePeerEmptyTable : Peer :=
  { allowed_ips := [({ isV6 := false, base := 0, prefixLen := 0 }, ())]
    resources := some []
    translated_resource_addresses := [] }

def noResolve : Nat → List IpAddr := fun _ => []

def c7Chan : Channel :=
  { peer := SocketAddr.v4 5, bound := true, bound_at := 0, last_received := 0 }

def c7CB : ChannelBindings :=
  { inner := [(16384, c7Chan)], next_channel := 16385 }

def c7Alloc : Allocation :=
  { server := RelaySocket.V4 9
    active_socket := some (SocketAddr.v4 9)
    ip4_srflx_candidate := none
    ip6_srflx_candidate := none
    ip4_allocation := some (Candidate.relayed (SocketAddr.v4 42))
    ip6_allocation := none
    allocation_lifetime := some (0, 600)
    buffered_transmits := []
    events := []
    sent_requests := []
    channel_bindings := c7CB
    buffered_channel_bindings := { capacity := 100, items := [] }
    last_now := 0
    credentials := some ⟨1, 2, 3, none⟩
    explicit_failure := none
    nextTid := 0 }

def c2Entry : SentReq :=
  { dst := SocketAddr.v4 7
    message := ⟨MessageClass.request, Method.refresh, 5,
      [Attribute.nonce 9, Attribute.messageIntegrity]⟩
    sentAt := 0
    backoffDur := 1
    backoff := backoffNew 0 1 }

def c2Msg : Message :=
  { msgClass := MessageClass.errorResponse, method := Method.refresh, transactionId := 5,
    attributes := [Attribute.errorCode 401] }

def c2Alloc : Allocation :=
  { server := RelaySocket.V4 7
    active_socket := some (SocketAddr.v4 7)
    ip4_srflx_candidate := none
    ip6_srflx_candidate := none
    ip4_allocation := some (Candidate.relayed (SocketAddr.v4 42))
    ip6_allocation := none
    allocation_lifetime := some (0, 600)
    buffered_transmits := []
    events := []
    sent_requests := [(5, c2Entry)]
    channel_bindings := { inner := [], next_channel := FIRST_CHANNEL }
    buffered_channel_bindings := { capacity := 100, items := [] }
    last_now := 0
    credentials := some ⟨1, 2, 3, some 9⟩
    explicit_failure := none
    nextTid := 0 }

def c4CB2 : ChannelBindings :=
  (c7CB.new_channel_to_peer (SocketAddr.v4 77) 5).2

def c3CB : ChannelBindings :=
  { inner := [(16384, ⟨SocketAddr.v4 1, true, 0, 0⟩)], next_channel := 16385 }

def c5Entry : SentReq :=
  { dst := SocketAddr.v4 7
    message := ⟨MessageClass.request, Method.channelBind, 5, [Attribute.messageIntegrity]⟩
    sentAt := 0
    backoffDur := 10
    backoff := backoffNew 0 1 }

def c5Alloc : Allocation :=
  { c2Alloc with
    sent_requests := [(5, c5Entry)]
    nextTid := 6 }

def C8Inv (orig : List Transmit) (a : Allocation) : Prop :=
  a.credentials = none ∧
  (∃ ts, a.buffered_transmits = orig ++ ts ∧
    ∀ t ∈ ts, t.payload.is_authenticated = false) ∧
  (∀ p ∈ a.sent_requests, p.2.message.method = Method.binding →
    p.2.message.is_authenticated = false)

def c8Alloc : Allocation :=
  { c2Alloc with
    credentials := none
    sent_requests := [] }

/-- Invariant carried through the retransmission loop of handle_timeout for a
fixed outstanding entry (tid, e) that is not yet due at time now: the entry is
present and unique for its key, all keys are below the fresh-id counter, every
due entry is not a REFRESH (so the loop never invalidates), keys agree with
the transaction id stored in the message, and the logical clock is at least
now. -/
def loopInv (now tid : Nat) (e : SentReq) (a : Allocation) : Prop :=
  (tid, e) ∈ a.sent_requests ∧
  (∀ e2, (tid, e2) ∈ a.sent_requests → e2 = e) ∧
  (∀ p ∈ a.sent_requests, p.1 < a.nextTid) ∧
  (∀ p ∈ a.sent_requests, dueAt now p.2 = true → ¬p.2.message.method = Method.refresh) ∧
  (∀ p ∈ a.sent_requests, p.2.message.transactionId = p.1) ∧
  now ≤ a.last_now

/-- Weaker invariant used after the retransmission loop: the entry is present
and all keys are below the fresh-id counter. -/
def memFresh (tid : Nat) (e : SentReq) (a : Allocation) : Prop :=
  (tid, e) ∈ a.sent_requests ∧ ∀ p ∈ a.sent_requests, p.1 < a.nextTid

/-! Helper lemmas about the association-list representation of BTreeMap and
about list searching, shared by several developments below. -/

theorem update_now_server (a : Allocation) (now : Nat) :
    (a.update_now now).server = a.server := by
  unfold Allocation.update_now
  split <;> rfl

theorem update_now_active_socket (a : Allocation) (now : Nat) :
    (a.update_now now).active_socket = a.active_socket := by
  unfold Allocation.update_now
  split <;> rfl

theorem update_now_events (a : Allocation) (now : Nat) :
    (a.update_now now).events = a.events := by
  unfold Allocation.update_now
  split <;> rfl

theorem update_now_credentials (a : Allocation) (now : Nat) :
    (a.update_now now).credentials = a.credentials := by
  unfold Allocation.update_now
  split <;> rfl

theorem update_now_explicit_failure (a : Allocation) (now : Nat) :
    (a.update_now now).explicit_failure = a.explicit_failure := by
  unfold Allocation.update_now
  split <;> rfl

theorem update_now_ip4_allocation (a : Allocation) (now : Nat) :
    (a.update_now now).ip4_allocation = a.ip4_allocation := by
  unfold Allocation.update_now
  split <;> rfl

theorem update_now_ip6_allocation (a : Allocation) (now : Nat) :
    (a.update_now now).ip6_allocation = a.ip6_allocation := by
  unfold Allocation.update_now
  split <;> rfl

theorem update_now_ip4_srflx (a : Allocation) (now : Nat) :
    (a.update_now now).ip4_srflx_candidate = a.ip4_srflx_candidate := by
  unfold Allocation.update_now
  split <;> rfl

theorem update_now_ip6_srflx (a : Allocation) (now : Nat) :
    (a.update_now now).ip6_srflx_candidate = a.ip6_srflx_candidate := by
  unfold Allocation.update_now
  split <;> rfl

theorem update_now_allocation_lifetime (a : Allocation) (now : Nat) :
    (a.update_now now).allocation_lifetime = a.allocation_lifetime := by
  unfold Allocation.update_now
  split <;> rfl

theorem update_now_channel_bindings (a : Allocation) (now : Nat) :
    (a.update_now now).channel_bindings = a.channel_bindings := by
  unfold Allocation.update_now
  split <;> rfl

theorem update_now_buffered_transmits (a : Allocation) (now : Nat) :
    (a.update_now now).buffered_transmits = a.buffered_transmits := by
  unfold Allocation.update_now
  split <;> rfl

theorem update_now_buffered_channel_bindings (a : Allocation) (now : Nat) :
    (a.update_now now).buffered_channel_bindings = a.buffered_channel_bindings := by
  unfold Allocation.update_now
  split <;> rfl

theorem update_now_nextTid (a : Allocation) (now : Nat) :
    (a.update_now now).nextTid = a.nextTid := by
  unfold Allocation.update_now
  split <;> rfl

theorem update_now_last_now (a : Allocation) (now : Nat) :
    (a.update_now now).last_now = max a.last_now now := by
  unfold Allocation.update_now
  split
  · rename_i h
    omega
  · rename_i h
    show now = max a.last_now now
    omega

theorem lookupS_map_value {α β : Type} (g : Nat → α → β) (l : List (Nat × α)) (k : Nat) :
    lookupS (l.map fun p => (p.1, g p.1 p.2)) k = (lookupS l k).map (g k) := by
  induction l with
  | nil => rfl
  | cons h t ih =>
    by_cases hk : h.1 = k
    · subst hk
      simp [lookupS]
    · simp [lookupS, hk, ih]

theorem mem_of_lookupS {α : Type} {l : List (Nat × α)} {k : Nat} {v : α}
    (h : lookupS l k = some v) : (k, v) ∈ l := by
  induction l with
  | nil => simp [lookupS] at h
  | cons hd t ih =>
    obtain ⟨a, b⟩ := hd
    by_cases hk : a = k
    · subst hk
      rw [lookupS, if_pos rfl] at h
      injection h with h
      subst h
      exact List.mem_cons_self _ _
    · rw [lookupS, if_neg hk] at h
      exact List.mem_cons_of_mem _ (ih h)

theorem lookupS_of_mem_pairwise {α : Type} {l : List (Nat × α)} {k : Nat} {v : α}
    (hp : (l.map Prod.fst).Pairwise (· < ·)) (h : (k, v) ∈ l) : lookupS l k = some v := by
  induction l with
  | nil => simp at h
  | cons hd t ih =>
    simp only [List.map_cons, List.pairwise_cons] at hp
    rcases List.mem_cons.mp h with h1 | h2
    · subst h1
      simp [lookupS]
    · have hne : hd.1 ≠ k := by
        have := hp.1 k (List.mem_map.mpr ⟨(k, v), h2, rfl⟩)
        omega
      rw [lookupS, if_neg hne]
      exact ih hp.2 h2

theorem find?_split {α : Type} {p : α → Bool} {l : List α} {x : α}
    (h : l.find? p = some x) :
    ∃ pre suf, l = pre ++ x :: suf ∧ (∀ y ∈ pre, p y = false) ∧ p x = true := by
  induction l with
  | nil => simp at h
  | cons hd t ih =>
    by_cases hp : p hd
    · rw [List.find?_cons_of_pos _ hp] at h
      injection h with h
      subst h
      exact ⟨[], t, rfl, by simp, hp⟩
    · rw [List.find?_cons_of_neg _ (by simpa using hp)] at h
      obtain ⟨pre, suf, heq, hpre, hx⟩ := ih h
      exact ⟨hd :: pre, suf, by simp [heq], by
        intro y hy
        rcases List.mem_cons.mp hy with rfl | hy
        · simpa using hp
        · exact hpre y hy, hx⟩

theorem mem_idsFrom {lo hi m : Nat} : m ∈ idsFrom lo hi ↔ lo ≤ m ∧ m < hi := by
  constructor
  · intro h
    obtain ⟨j, hj, rfl⟩ := List.mem_map.mp h
    have := List.mem_range.mp hj
    omega
  · intro ⟨h1, h2⟩
    refine List.mem_map.mpr ⟨m - lo, List.mem_range.mpr (by omega), by omega⟩

theorem mem_insertS {α : Type} {l : List (Nat × α)} {k k' : Nat} {v v' : α}
    (h : (k, v) ∈ insertS k' v' l) : (k = k' ∧ v = v') ∨ (k, v) ∈ l := by
  induction l with
  | nil => simp [insertS] at h; exact Or.inl h
  | cons hd t ih =>
    rw [insertS] at h
    split at h
    · rcases List.mem_cons.mp h with h1 | h2
      · exact Or.inl (by cases h1; exact ⟨rfl, rfl⟩)
      · exact Or.inr h2
    · split at h
      · rcases List.mem_cons.mp h with h1 | h2
        · exact Or.inl (by cases h1; exact ⟨rfl, rfl⟩)
        · exact Or.inr (List.mem_cons_of_mem _ h2)
      · rcases List.mem_cons.mp h with h1 | h2
        · exact Or.inr (by simp [h1])
        · rcases ih h2 with h3 | h4
          · exact Or.inl h3
          · exact Or.inr (List.mem_cons_of_mem _ h4)

theorem insertS_mem_self {α : Type} (k : Nat) (v : α) (l : List (Nat × α)) :
    (k, v) ∈ insertS k v l := by
  induction l with
  | nil => simp [insertS]
  | cons hd t ih =>
    rw [insertS]
    split
    · exact List.mem_cons_self _ _
    · split
      · exact List.mem_cons_self _ _
      · exact List.mem_cons_of_mem _ ih

theorem mem_insertS_of_mem {α : Type} {l : List (Nat × α)} {k k' : Nat} {v v' : α}
    (hne : k ≠ k') (h : (k, v) ∈ l) : (k, v) ∈ insertS k' v' l := by
  induction l with
  | nil => simp at h
  | cons hd t ih =>
    rw [insertS]
    rcases List.mem_cons.mp h with h1 | h2
    · subst h1
      split
      · exact List.mem_cons_of_mem _ (List.mem_cons_self _ _)
      · split
        · rename_i he _
          exact absurd (by omega : k' = k → False) (by simp_all)
        · exact List.mem_cons_self _ _
    · split
      · exact List.mem_cons_of_mem _ (List.mem_cons_of_mem _ h2)
      · split
        · exact List.mem_cons_of_mem _ h2
        · exact List.mem_cons_of_mem _ (ih h2)

theorem mem_removeS {α : Type} {l : List (Nat × α)} {k k' : Nat} {v : α}
    (hne : k ≠ k') (h : (k, v) ∈ l) : (k, v) ∈ removeS k' l := by
  refine List.mem_filter.mpr ⟨h, by simpa using hne⟩

theorem mem_of_mem_removeS {α : Type} {l : List (Nat × α)} {k k' : Nat} {v : α}
    (h : (k, v) ∈ removeS k' l) : (k, v) ∈ l ∧ k ≠ k' := by
  have := List.mem_filter.mp h
  exact ⟨this.1, by simpa using this.2⟩

theorem channel_data_decode_encode (n : Nat) (payload : List Nat)
    (hn : n < 65536) (hlen : payload.length < 65536) :
    channel_data_decode (channel_data_encode n payload) = some (n, payload) := by
  have h1 : payload.length / 256 % 256 * 256 + payload.length % 256 = payload.length := by
    omega
  have h2 : n / 256 % 256 * 256 + n % 256 = n := by omega
  simp only [channel_data_encode, channel_data_decode, h1, h2, lt_self_iff_false, if_false,
    List.take_length]

/-- C10: invalidate_allocation clears exactly the relay candidates (emitting an
Invalid event for each current relay candidate, appended after the previously
queued events), the channel-binding table, the allocation lifetime and the
outstanding-request map, and leaves the server-reflexive candidates, the
stored credentials, the already-buffered transmits, the previously queued
events, and all other fields (active socket, server, clock, buffered channel
bindings, failure marker, next channel hint) unchanged. -/
theorem claim_c10_invalidate_allocation_frame (a : Allocation) :
    a.invalidate_allocation.ip4_allocation = none ∧
    a.invalidate_allocation.ip6_allocation = none ∧
    a.invalidate_allocation.events =
      a.events ++ a.current_relay_candidates.map Event.invalid ∧
    a.invalidate_allocation.channel_bindings.inner = [] ∧
    a.invalidate_allocation.allocation_lifetime = none ∧
    a.invalidate_allocation.sent_requests = [] ∧
    a.invalidate_allocation.ip4_srflx_candidate = a.ip4_srflx_candidate ∧
    a.invalidate_allocation.ip6_srflx_candidate = a.ip6_srflx_candidate ∧
    a.invalidate_allocation.credentials = a.credentials ∧
    a.invalidate_allocation.buffered_transmits = a.buffered_transmits ∧
    a.invalidate_allocation.active_socket = a.active_socket ∧
    a.invalidate_allocation.server = a.server ∧
    a.invalidate_allocation.last_now = a.last_now ∧
    a.invalidate_allocation.buffered_channel_bindings = a.buffered_channel_bindings ∧
    a.invalidate_allocation.explicit_failure = a.explicit_failure ∧
    a.invalidate_allocation.channel_bindings.next_channel =
      a.channel_bindings.next_channel := by
  simp [Allocation.invalidate_allocation, ChannelBindings.clear]

/-- C1 counterexample: handling the Closed portal event panics (the source arm
is an unimplemented macro invocation), so processing a portal-close does abort
the loop, contrary to the claim. -/
theorem claim_c1_counterexample :
    handle_portal_event PortalEvent.closed = HandleResult.panics := rfl

/-- C1 (amended): handling any portal event other than Closed never panics;
the Closed event, which the client treats as unreachable because it never
actively closes the portal connection, is the sole panicking arm. -/
theorem claim_c1_no_panic_except_closed (e : PortalEvent)
    (h : e ≠ PortalEvent.closed) : (handle_portal_event e).isPanic = false := by
  cases e
  case closed => exact absurd rfl h
  all_goals rfl

/-- C1 witness: a concrete non-Closed portal event is handled without panic. -/
theorem claim_c1_witness :
    (handle_portal_event PortalEvent.heartbeatSent).isPanic = false :=
  claim_c1_no_panic_except_closed PortalEvent.heartbeatSent (by decide)

/-- C9: after WireGuard decryption, a packet whose destination is outside the
allowed-IP table is dropped without an error; on a gateway, a destination that
resolves to a CIDR resource whose range does not contain it fails with
InvalidSource; a destination resolving to no owned resource is dropped. -/
theorem claim_c9_decapsulate_policy (p : Peer) (resolve : Nat → List IpAddr)
    (packet : IpPacketM) (dst : IpAddr) (tbl : ResourceTable)
    (r : ResourceDescriptionCidr) (expiry : Nat) :
    (p.is_allowed dst = false →
      p.decapsulate resolve (TunnResult.writeToTunnelV4 (some packet) dst) =
        (Except.ok none, p)) ∧
    (p.is_allowed dst = true → p.resources = some tbl →
      get_by_ip tbl packet.dest = some (ResourceDescription.cidr r, expiry) →
      r.address.contains packet.dest = false →
      p.decapsulate resolve (TunnResult.writeToTunnelV4 (some packet) dst) =
        (Except.error PeerError.InvalidSource, p)) ∧
    (p.is_allowed dst = true → p.resources = some tbl →
      get_by_ip tbl packet.dest = none →
      p.decapsulate resolve (TunnResult.writeToTunnelV4 (some packet) dst) =
        (Except.ok none, p)) := by
  refine ⟨?_, ?_, ?_⟩
  · intro h
    simp [Peer.decapsulate, Peer.decapsulateTunnel, h]
  · intro h1 h2 h3 h4
    simp [Peer.decapsulate, Peer.decapsulateTunnel, h1, h2, h3, h4]
  · intro h1 h2 h3
    simp [Peer.decapsulate, Peer.decapsulateTunnel, h1, h2, h3]

/-- C9 witness: concrete peers exercising all three policy outcomes. -/
theorem claim_c9_witness :
    samplePeerDrop.decapsulate noResolve
        (TunnResult.writeToTunnelV4 (some samplePacket) (IpAddr.v4 500)) =
      (Except.ok none, samplePeerDrop) ∧
    samplePeerGw.decapsulate noResolve
        (TunnResult.writeToTunnelV4 (some samplePacket) (IpAddr.v4 500)) =
      (Except.error PeerError.InvalidSource, samplePeerGw) ∧
    samplePeerEmptyTable.decapsulate noResolve
        (TunnResult.writeToTunnelV4 (some samplePacket) (IpAddr.v4 500)) =
      (Except.ok none, samplePeerEmptyTable) :=
  ⟨(claim_c9_decapsulate_policy samplePeerDrop noResolve samplePacket (IpAddr.v4 500)
      [] ⟨0, ⟨false, 0, 0⟩⟩ 0).1 (by decide),
   (claim_c9_decapsulate_policy samplePeerGw noResolve samplePacket (IpAddr.v4 500)
      sampleCidrTable ⟨5, ⟨false, 1000, 32⟩⟩ 77).2.1 (by decide) (by decide) (by decide)
      (by decide),
   (claim_c9_decapsulate_policy samplePeerEmptyTable noResolve samplePacket (IpAddr.v4 500)
      [] ⟨0, ⟨false, 0, 0⟩⟩ 0).2.2 (by decide) (by decide) (by decide)⟩

/-- C7: for a confirmed channel n bound to peer P and a payload within the MTU,
encoding the payload as a channel-data frame with number n and decoding it via
the channel-binding table yields exactly (P, payload), updating the channel's
last_received time; at the allocation level, decapsulate returns the peer, the
payload and our relay socket. -/
theorem claim_c7_channel_data_roundtrip
    (cb : ChannelBindings) (a : Allocation) (n : Nat) (ch : Channel)
    (payload : List Nat) (now : Nat) (sender : SocketAddr) (cand : Candidate) (pp : Nat)
    (hn1 : FIRST_CHANNEL ≤ n) (hn2 : n ≤ LAST_CHANNEL)
    (hch : lookupS cb.inner n = some ch)
    (hbound : ch.bound = true)
    (hlen : payload.length ≤ MTU)
    (hcb : a.channel_bindings = cb)
    (hmatch : a.server.matches sender = true)
    (hpeer : ch.peer = SocketAddr.v4 pp)
    (hip4 : a.ip4_allocation = some cand) :
    cb.try_decode (channel_data_encode n payload) now =
      (some (ch.peer, payload),
       { cb with inner := cb.inner.map fun p =>
           if p.1 = n then (p.1, p.2.record_received now) else p }) ∧
    (a.decapsulate sender (channel_data_encode n payload) now).1 =
      some (ch.peer, payload, cand.addr) := by
  have hn' : n < 65536 := by
    have := hn2
    simp only [LAST_CHANNEL] at this
    omega
  have hlen' : payload.length < 65536 := by
    have := hlen
    simp only [MTU] at this
    omega
  have hdec := channel_data_decode_encode n payload hn' hlen'
  have key : cb.try_decode (channel_data_encode n payload) now =
      (some (ch.peer, payload),
       { cb with inner := cb.inner.map fun p =>
           if p.1 = n then (p.1, p.2.record_received now) else p }) := by
    simp [ChannelBindings.try_decode, hdec, hch, hbound]
  refine ⟨key, ?_⟩
  simp [Allocation.decapsulate, hmatch, hcb, key, hpeer, Allocation.ip4_socket, hip4]

/-- C7 witness: a concrete confirmed channel round-trips a concrete payload. -/
theorem claim_c7_witness :
    c7CB.try_decode (channel_data_encode 16384 [1, 2, 3]) 7 =
      (some (c7Chan.peer, [1, 2, 3]),
       { c7CB with inner := c7CB.inner.map fun p =>
           if p.1 = 16384 then (p.1, p.2.record_received 7) else p }) ∧
    (c7Alloc.decapsulate (SocketAddr.v4 9) (channel_data_encode 16384 [1, 2, 3]) 7).1 =
      some (c7Chan.peer, [1, 2, 3], (Candidate.relayed (SocketAddr.v4 42)).addr) :=
  claim_c7_channel_data_roundtrip c7CB c7Alloc 16384 c7Chan [1, 2, 3] 7 (SocketAddr.v4 9)
    (Candidate.relayed (SocketAddr.v4 42)) 5 (by decide) (by decide) (by decide) (by decide)
    (by decide) (by decide) (by decide) (by decide) (by decide)

theorem lookupS_update_map (l : List (Nat × SentReq)) (now k : Nat) :
    lookupS (l.map fun p =>
        (p.1, { p.2 with backoff := { p.2.backoff with clock := { now := now } } })) k
      = (lookupS l k).map fun v =>
          { v with backoff := { v.backoff with clock := { now := now } } } := by
  induction l with
  | nil => rfl
  | cons hd t ih =>
    by_cases hk : hd.1 = k
    · simp [lookupS, hk]
    · simp [lookupS, hk, ih]

theorem update_now_lookup (a : Allocation) (now k : Nat) (e : SentReq)
    (h : lookupS a.sent_requests k = some e) :
    ∃ e', lookupS (a.update_now now).sent_requests k = some e' ∧
      e'.message = e.message ∧ e'.dst = e.dst ∧ e'.sentAt = e.sentAt ∧
      e'.backoffDur = e.backoffDur := by
  unfold Allocation.update_now
  split
  · exact ⟨e, h, rfl, rfl, rfl, rfl⟩
  · refine ⟨{ e with backoff := { e.backoff with clock := { now := now } } },
      ?_, rfl, rfl, rfl, rfl⟩
    show lookupS (a.sent_requests.map fun p =>
        (p.1, { p.2 with backoff := { p.2.backoff with clock := { now := now } } })) k = _
    rw [lookupS_update_map, h]
    rfl

/-- C2: when handle_input matches a response carrying error code 401 to an
outstanding request that was sent with a Nonce attribute, the credentials are
cleared, the allocation is invalidated (an Invalid event per current relay
candidate, channel table, lifetime and outstanding-request map cleared), and
once the queued events and transmits are drained can_be_freed returns
AuthenticationError. -/
theorem claim_c2_unauthorized_with_nonce
    (a : Allocation) (sender localAddr : SocketAddr) (msg : Message) (now : Nat)
    (entry : SentReq) (s : SocketAddr)
    (hmatch : a.server.matches sender = true)
    (hentry : lookupS a.sent_requests msg.transactionId = some entry)
    (hcode : msg.get_error_code = some 401)
    (hnonce : entry.message.get_nonce.isSome = true)
    (hactive : a.active_socket = some s)
    (hfail : a.explicit_failure = none) :
    (a.handle_input sender localAddr (some msg) now).1 = true ∧
    (a.handle_input sender localAddr (some msg) now).2.credentials = none ∧
    (a.handle_input sender localAddr (some msg) now).2.sent_requests = [] ∧
    (a.handle_input sender localAddr (some msg) now).2.channel_bindings.inner = [] ∧
    (a.handle_input sender localAddr (some msg) now).2.allocation_lifetime = none ∧
    (a.handle_input sender localAddr (some msg) now).2.ip4_allocation = none ∧
    (a.handle_input sender localAddr (some msg) now).2.ip6_allocation = none ∧
    (a.handle_input sender localAddr (some msg) now).2.events =
      a.events ++ a.current_relay_candidates.map Event.invalid ∧
    (Allocation.can_be_freed
        { (a.handle_input sender localAddr (some msg) now).2 with
          events := [], buffered_transmits := [] }).1 =
      some FreeReason.AuthenticationError := by
  obtain ⟨e', he', hm, _, _, _⟩ := update_now_lookup a now msg.transactionId entry hentry
  have hnonce' : e'.message.get_nonce.isSome = true := by rw [hm]; exact hnonce
  have hres : a.handle_input sender localAddr (some msg) now =
      (true, Allocation.invalidate_allocation
        { a.update_now now with
          sent_requests := removeS msg.transactionId (a.update_now now).sent_requests
          credentials := none }) := by
    rw [Allocation.handle_input]
    simp only [update_now_server, hmatch, Bool.not_true, Bool.false_eq_true, if_false, he', hcode]
    unfold Allocation.handleErrorResponse
    rw [if_pos (show (401 : Nat) = 401 ∧ (Message.get_nonce e'.message).isSome = true from
      ⟨rfl, hnonce'⟩)]
  rw [hres]
  simp only [Allocation.invalidate_allocation, Allocation.current_relay_candidates,
    ChannelBindings.clear, Allocation.can_be_freed, update_now_events,
    update_now_ip4_allocation, update_now_ip6_allocation, update_now_channel_bindings,
    update_now_explicit_failure, hfail, update_now_active_socket,
    Allocation.received_any_response, Allocation.has_credentials, hactive]
  simp

/-- C2 witness: a concrete 401 reply to a nonce-carrying refresh request. -/
theorem claim_c2_witness :
    (c2Alloc.handle_input (SocketAddr.v4 7) (SocketAddr.v4 8) (some c2Msg) 10).1 = true ∧
    (c2Alloc.handle_input (SocketAddr.v4 7) (SocketAddr.v4 8) (some c2Msg) 10).2.credentials
      = none ∧
    (c2Alloc.handle_input (SocketAddr.v4 7) (SocketAddr.v4 8) (some c2Msg) 10).2.sent_requests
      = [] ∧
    (c2Alloc.handle_input (SocketAddr.v4 7) (SocketAddr.v4 8)
      (some c2Msg) 10).2.channel_bindings.inner = [] ∧
    (c2Alloc.handle_input (SocketAddr.v4 7) (SocketAddr.v4 8)
      (some c2Msg) 10).2.allocation_lifetime = none ∧
    (c2Alloc.handle_input (SocketAddr.v4 7) (SocketAddr.v4 8)
      (some c2Msg) 10).2.ip4_allocation = none ∧
    (c2Alloc.handle_input (SocketAddr.v4 7) (SocketAddr.v4 8)
      (some c2Msg) 10).2.ip6_allocation = none ∧
    (c2Alloc.handle_input (SocketAddr.v4 7) (SocketAddr.v4 8) (some c2Msg) 10).2.events =
      c2Alloc.events ++ c2Alloc.current_relay_candidates.map Event.invalid ∧
    (Allocation.can_be_freed
        { (c2Alloc.handle_input (SocketAddr.v4 7) (SocketAddr.v4 8) (some c2Msg) 10).2 with
          events := [], buffered_transmits := [] }).1 =
      some FreeReason.AuthenticationError :=
  claim_c2_unauthorized_with_nonce c2Alloc (SocketAddr.v4 7) (SocketAddr.v4 8) c2Msg 10
    c2Entry (SocketAddr.v4 7) (by decide) (by decide) (by decide) (by decide) (by decide)
    (by decide)

/-- C3: new_channel_to_peer hands an occupied number n to a different peer only
if the occupant received no data since it was bound and is at least 15 minutes
old (10-minute lifetime plus 5-minute rebind cooldown); the scan starts at
next_channel and wraps through the 4096-entry space, taking the first free or
rebind-eligible slot; and it returns none when every slot in the channel range
is occupied by a non-reusable channel not bound to the requesting peer. -/
theorem claim_c3_channel_reuse
    (cb : ChannelBindings) (peer : SocketAddr) (now : Nat)
    (hkeys : ∀ p ∈ cb.inner, FIRST_CHANNEL ≤ p.1 ∧ p.1 ≤ LAST_CHANNEL)
    (hnext1 : FIRST_CHANNEL ≤ cb.next_channel) (hnext2 : cb.next_channel ≤ LAST_CHANNEL)
    (hnodup : (cb.inner.map Prod.fst).Pairwise (· < ·)) :
    (∀ n ch, (cb.new_channel_to_peer peer now).1 = some n →
      lookupS cb.inner n = some ch → ch.peer ≠ peer →
      ch.no_activity = true ∧ CHANNEL_LIFETIME + CHANNEL_REBIND_TIMEOUT ≤ ch.age now) ∧
    (∀ n, cb.bound_channel_to_peer peer now = none →
      (cb.new_channel_to_peer peer now).1 = some n →
      ∃ pre suf,
        idsFrom cb.next_channel (LAST_CHANNEL + 1) ++ idsFrom FIRST_CHANNEL cb.next_channel
          = pre ++ n :: suf ∧
        ∀ m ∈ pre, ∃ ch, lookupS cb.inner m = some ch ∧ ch.can_rebind now = false) ∧
    ((∀ n, FIRST_CHANNEL ≤ n → n ≤ LAST_CHANNEL →
        ∃ ch, lookupS cb.inner n = some ch ∧ ch.can_rebind now = false ∧
          ch.bound_to_peer peer now = false) →
      (cb.new_channel_to_peer peer now).1 = none) := by
  refine ⟨?_, ?_, ?_⟩
  · intro n ch hres hlook hne
    cases hbc : cb.bound_channel_to_peer peer now with
    | some m =>
      simp only [ChannelBindings.new_channel_to_peer, hbc, Option.some.injEq] at hres
      unfold ChannelBindings.bound_channel_to_peer at hbc
      cases hf : cb.inner.find? fun p => p.2.bound_to_peer peer now with
      | none => rw [hf] at hbc; simp at hbc
      | some pair =>
        rw [hf] at hbc
        simp only [Option.map_some'] at hbc
        injection hbc with hbc
        have hmem := List.mem_of_find?_eq_some hf
        have hp := List.find?_some hf
        have hl : lookupS cb.inner n = some pair.2 := by
          rw [← hres, ← hbc]
          exact lookupS_of_mem_pairwise hnodup (by
            have he : (pair.1, pair.2) = pair := rfl
            rw [he]
            exact hmem)
        rw [hlook] at hl
        injection hl with hl
        subst hl
        simp only [Channel.bound_to_peer, Bool.and_eq_true, decide_eq_true_eq] at hp
        exact absurd hp.1.1 hne
    | none =>
      cases hnc : cb.next_channel_number now with
      | none =>
        simp only [ChannelBindings.new_channel_to_peer, hbc, hnc] at hres
        exact Option.noConfusion hres
      | some number =>
        simp only [ChannelBindings.new_channel_to_peer, hbc, hnc, Option.some.injEq] at hres
        subst hres
        have hp := List.find?_some hnc
        rw [hlook] at hp
        simp only [Channel.can_rebind, Bool.and_eq_true, decide_eq_true_eq] at hp
        exact hp
  · intro n hbc hres
    cases hnc : cb.next_channel_number now with
    | none =>
      simp only [ChannelBindings.new_channel_to_peer, hbc, hnc] at hres
      exact Option.noConfusion hres
    | some number =>
      simp only [ChannelBindings.new_channel_to_peer, hbc, hnc, Option.some.injEq] at hres
      subst hres
      obtain ⟨pre, suf, heq, hpre, hn⟩ := find?_split hnc
      refine ⟨pre, suf, heq, ?_⟩
      intro m hm
      have hpm := hpre m hm
      cases hl : lookupS cb.inner m with
      | none => rw [hl] at hpm; simp at hpm
      | some ch =>
        rw [hl] at hpm
        exact ⟨ch, rfl, hpm⟩
  · intro hall
    have hbc : cb.bound_channel_to_peer peer now = none := by
      unfold ChannelBindings.bound_channel_to_peer
      rw [List.find?_eq_none.mpr ?_]
      · rfl
      · intro p hp
        obtain ⟨hr1, hr2⟩ := hkeys p hp
        obtain ⟨ch, hl, _, hb⟩ := hall p.1 hr1 hr2
        have : lookupS cb.inner p.1 = some p.2 :=
          lookupS_of_mem_pairwise hnodup (by
            have : (p.1, p.2) = p := rfl
            rw [this]
            exact hp)
        rw [hl] at this
        injection this with this
        subst this
        simp [hb]
    have hnc : cb.next_channel_number now = none := by
      unfold ChannelBindings.next_channel_number
      rw [List.find?_eq_none.mpr ?_]
      intro m hm
      have hrange : FIRST_CHANNEL ≤ m ∧ m ≤ LAST_CHANNEL := by
        rcases List.mem_append.mp hm with h1 | h2
        · have := mem_idsFrom.mp h1
          omega
        · have := mem_idsFrom.mp h2
          omega
      obtain ⟨ch, hl, hcr, _⟩ := hall m hrange.1 hrange.2
      simp [hl, hcr]
    simp only [ChannelBindings.new_channel_to_peer, hbc, hnc]

/-- C3 witness: a small table with one stale, inactive, foreign-peer channel
satisfies the hypotheses of the reuse theorem. -/
theorem claim_c3_witness :
    (∀ n ch, (c3CB.new_channel_to_peer (SocketAddr.v4 2) 1000).1 = some n →
      lookupS c3CB.inner n = some ch → ch.peer ≠ SocketAddr.v4 2 →
      ch.no_activity = true ∧ CHANNEL_LIFETIME + CHANNEL_REBIND_TIMEOUT ≤ ch.age 1000) ∧
    (∀ n, c3CB.bound_channel_to_peer (SocketAddr.v4 2) 1000 = none →
      (c3CB.new_channel_to_peer (SocketAddr.v4 2) 1000).1 = some n →
      ∃ pre suf,
        idsFrom c3CB.next_channel (LAST_CHANNEL + 1) ++ idsFrom FIRST_CHANNEL c3CB.next_channel
          = pre ++ n :: suf ∧
        ∀ m ∈ pre, ∃ ch, lookupS c3CB.inner m = some ch ∧ ch.can_rebind 1000 = false) ∧
    ((∀ n, FIRST_CHANNEL ≤ n → n ≤ LAST_CHANNEL →
        ∃ ch, lookupS c3CB.inner n = some ch ∧ ch.can_rebind 1000 = false ∧
          ch.bound_to_peer (SocketAddr.v4 2) 1000 = false) →
      (c3CB.new_channel_to_peer (SocketAddr.v4 2) 1000).1 = none) :=
  claim_c3_channel_reuse c3CB (SocketAddr.v4 2) 1000 (by decide) (by decide) (by decide)
    (by decide)

theorem queue_last_now (a : Allocation) (dst : SocketAddr) (m : Message)
    (b : Option ExponentialBackoff) : (a.queue dst m b).2.last_now = a.last_now := by
  simp only [Allocation.queue]
  split <;> rfl

theorem queue_server (a : Allocation) (dst : SocketAddr) (m : Message)
    (b : Option ExponentialBackoff) : (a.queue dst m b).2.server = a.server := by
  simp only [Allocation.queue]
  split <;> rfl

theorem authenticate_and_queue_last_now (a : Allocation) (m : Message)
    (b : Option ExponentialBackoff) :
    (a.authenticate_and_queue m b).2.last_now = a.last_now := by
  unfold Allocation.authenticate_and_queue
  cases a.active_socket with
  | none => rfl
  | some dst =>
    cases a.credentials with
    | none => rfl
    | some c => exact queue_last_now _ _ _ _

theorem invalidate_allocation_last_now (a : Allocation) :
    a.invalidate_allocation.last_now = a.last_now := rfl

theorem send_binding_requests_last_now (a : Allocation) :
    a.send_binding_requests.last_now = a.last_now := by
  simp only [Allocation.send_binding_requests]
  cases h4 : a.server.as_v4 with
  | none =>
    simp only
    cases h6 : a.server.as_v6 with
    | none => rfl
    | some v6 => simp only [h6, queue_last_now]
  | some v4 =>
    simp only [queue_server]
    cases h6 : a.server.as_v6 with
    | none => simp only [h6, queue_last_now]
    | some v6 => simp only [h6, queue_last_now]

theorem retransmitLoop_last_now (now : Nat) (fuel : Nat) (a : Allocation) :
    (Allocation.retransmitLoop now fuel a).last_now = a.last_now := by
  induction fuel generalizing a with
  | zero => rfl
  | succ n ih =>
    rw [Allocation.retransmitLoop]
    cases hf : a.sent_requests.find? fun p => dueAt now p.2 with
    | none => rfl
    | some te =>
      simp only
      split
      · rw [ih, queue_last_now]
      · rw [ih]
        split
        · rw [invalidate_allocation_last_now]
          dsimp only
          rw [authenticate_and_queue_last_now]
        · rw [authenticate_and_queue_last_now]

theorem foldl_aq_last_now (l : List (Nat × SocketAddr)) (a : Allocation) :
    (l.foldl (fun acc p =>
      (acc.authenticate_and_queue (make_channel_bind_request p.2 p.1 0) none).2) a).last_now
      = a.last_now := by
  induction l generalizing a with
  | nil => rfl
  | cons hd t ih => rw [List.foldl_cons, ih, authenticate_and_queue_last_now]

theorem bind_channel_last_now (a : Allocation) (peer : SocketAddr) (now : Nat) :
    (a.bind_channel peer now).last_now =
      if a.is_suspended then a.last_now else max a.last_now now := by
  unfold Allocation.bind_channel
  split
  · rfl
  · rw [← update_now_last_now a now]
    generalize a.update_now now = a1
    dsimp only
    split
    · rfl
    · split
      · rfl
      · split
        · rfl
        · split
          · rfl
          · cases hnc : a1.channel_bindings.new_channel_to_peer peer now with
            | mk fstv cb =>
              cases fstv with
              | none => rfl
              | some channel => rw [authenticate_and_queue_last_now]

theorem bind_channel_last_now_stale (a : Allocation) (peer : SocketAddr) (now : Nat)
    (h : now ≤ a.last_now) : (a.bind_channel peer now).last_now = a.last_now := by
  rw [bind_channel_last_now]
  split
  · rfl
  · omega

theorem drainBufferedBindings_last_now (now fuel : Nat) (a : Allocation)
    (h : now ≤ a.last_now) :
    (Allocation.drainBufferedBindings now fuel a).last_now = a.last_now := by
  induction fuel generalizing a with
  | zero => rfl
  | succ n ih =>
    rw [Allocation.drainBufferedBindings]
    cases hp : a.buffered_channel_bindings.pop with
    | mk popped rest =>
      cases popped with
      | none => rfl
      | some peer =>
        simp only
        have hb := bind_channel_last_now_stale { a with buffered_channel_bindings := rest }
          peer now h
        rw [ih _ (by rw [hb]; exact h), hb]

theorem handleErrorResponse_last_now (a : Allocation) (original_request msg : Message)
    (code : Nat) : (a.handleErrorResponse original_request msg code).2.last_now = a.last_now := by
  unfold Allocation.handleErrorResponse
  split
  · rfl
  · split
    · cases a.credentials with
      | none => rfl
      | some c =>
        simp only
        split
        · split
          · rfl
          · exact authenticate_and_queue_last_now _ _ _
        · exact authenticate_and_queue_last_now _ _ _
    · split
      · split
        · exact authenticate_and_queue_last_now _ _ _
        · exact authenticate_and_queue_last_now _ _ _
        · exact authenticate_and_queue_last_now _ _ _
        · rfl
      · split
        · rfl
        · split
          · rfl
          · split
            · rfl
            · split
              · rfl
              · rfl
          · rfl

theorem handleSuccessResponse_last_now (a : Allocation)
    (original_dst localAddr : SocketAddr) (original_request msg : Message) (now : Nat)
    (h : now ≤ a.last_now) :
    (a.handleSuccessResponse original_dst localAddr original_request msg now).2.last_now
      = a.last_now := by
  unfold Allocation.handleSuccessResponse
  split
  · dsimp only
    cases original_dst with
    | v4 x =>
      dsimp only
      split
      · rfl
      · split
        · exact authenticate_and_queue_last_now _ _ _
        · exact authenticate_and_queue_last_now _ _ _
    | v6 x =>
      dsimp only
      split
      · rfl
      · split
        · exact authenticate_and_queue_last_now _ _ _
        · exact authenticate_and_queue_last_now _ _ _
  · split
    · rfl
    · dsimp only
      split
      · rfl
      · exact drainBufferedBindings_last_now _ _ _ h
  · split
    · rfl
    · split
      · exact authenticate_and_queue_last_now _ _ _
      · rfl
  · split
    · rfl
    · rfl
  · rfl

theorem handle_input_last_now (a : Allocation) (sender localAddr : SocketAddr)
    (packet : Option Message) (now : Nat) :
    (a.handle_input sender localAddr packet now).2.last_now = max a.last_now now := by
  unfold Allocation.handle_input
  have hup := update_now_last_now a now
  have hle : now ≤ (a.update_now now).last_now := by omega
  dsimp only
  split
  · exact hup
  · cases packet with
    | none => exact hup
    | some msg =>
      dsimp only
      cases hl : lookupS (a.update_now now).sent_requests msg.transactionId with
      | none => exact hup
      | some entry =>
        dsimp only
        cases he : msg.get_error_code with
        | some code =>
          dsimp only
          rw [handleErrorResponse_last_now]
          exact hup
        | none =>
          dsimp only
          split
          · exact hup
          · rw [handleSuccessResponse_last_now]
            · exact hup
            · exact hle

theorem expiry_step_last_now (b : Allocation) (now : Nat) :
    (match b.allocation_expires_at with
      | some expires_at => if expires_at ≤ now then b.invalidate_allocation else b
      | none => b).last_now = b.last_now := by
  split
  · split
    · rw [invalidate_allocation_last_now]
    · rfl
  · rfl

theorem handle_timeout_last_now (a : Allocation) (now : Nat) :
    (a.handle_timeout now).last_now = max a.last_now now := by
  unfold Allocation.handle_timeout
  dsimp only
  rw [foldl_aq_last_now]
  split
  · split
    · rw [authenticate_and_queue_last_now, retransmitLoop_last_now, expiry_step_last_now]
      exact update_now_last_now a now
    · rw [retransmitLoop_last_now, expiry_step_last_now]
      exact update_now_last_now a now
  · rw [retransmitLoop_last_now, expiry_step_last_now]
    exact update_now_last_now a now

theorem refresh_last_now (a : Allocation) (now : Nat) :
    (a.refresh now).last_now = max a.last_now now := by
  rw [Allocation.refresh]
  have hup := update_now_last_now a now
  split
  · exact hup
  · split
    · rw [send_binding_requests_last_now]
      exact hup
    · rw [authenticate_and_queue_last_now]
      exact hup

theorem decapsulate_last_now (a : Allocation) (sender : SocketAddr) (packet : List Nat)
    (now : Nat) : (a.decapsulate sender packet now).2.last_now = a.last_now := by
  unfold Allocation.decapsulate
  split
  · rfl
  · cases ht : a.channel_bindings.try_decode packet now with
    | mk res cb =>
      cases res with
      | none => rfl
      | some pp =>
        dsimp only
        cases pp.1 with
        | v4 x =>
          dsimp only
          split <;> rfl
        | v6 x =>
          dsimp only
          split <;> rfl

/-- C6 (amended): last_now never decreases under any operation: a stale now is
ignored entirely by update_now, refresh, handle_input and handle_timeout
always advance last_now to max(last_now, now), bind_channel does so unless the
allocation is suspended (the suspension check precedes the clock update, so a
suspended allocation ignores the new now entirely), and decapsulate never
touches the clock. -/
theorem claim_c6_monotone_clock (a : Allocation) (now : Nat)
    (peer sender localAddr : SocketAddr) (packet : Option Message) (bytes : List Nat) :
    (a.update_now now).last_now = max a.last_now now ∧
    (now ≤ a.last_now → a.update_now now = a) ∧
    (a.refresh now).last_now = max a.last_now now ∧
    (a.handle_input sender localAddr packet now).2.last_now = max a.last_now now ∧
    (a.handle_timeout now).last_now = max a.last_now now ∧
    a.last_now ≤ (a.bind_channel peer now).last_now ∧
    (a.is_suspended = false → (a.bind_channel peer now).last_now = max a.last_now now) ∧
    (a.decapsulate sender bytes now).2.last_now = a.last_now := by
  refine ⟨update_now_last_now a now, ?_, refresh_last_now a now,
    handle_input_last_now a sender localAddr packet now, handle_timeout_last_now a now,
    ?_, ?_, decapsulate_last_now a sender bytes now⟩
  · intro h
    unfold Allocation.update_now
    rw [if_pos h]
  · rw [bind_channel_last_now]
    split
    · exact le_refl _
    · exact le_max_left _ _
  · intro h
    rw [bind_channel_last_now, if_neg]
    simp [h]

/-- C6 counterexample: a reachable suspended allocation (created at time 0, its
binding requests timed out and its backoff exhausted at time 100, transmits
drained) ignores a bind_channel call at the later time 200: last_now stays at
100, so not every operation with a later now advances last_now to it. -/
theorem claim_c6_counterexample :
    c6State.is_suspended = true ∧ c6State.last_now = 100 ∧ (100 : Nat) < 200 ∧
    (c6State.bind_channel (SocketAddr.v4 99) 200).last_now = 100 := by decide

/-- C6 witness: a stale clock call is a no-op and a live allocation advances
its clock on bind_channel. -/
theorem claim_c6_witness :
    c7Alloc.update_now 0 = c7Alloc ∧
    (c7Alloc.bind_channel (SocketAddr.v4 5) 50).last_now = max c7Alloc.last_now 50 :=
  ⟨(claim_c6_monotone_clock c7Alloc 0 (SocketAddr.v4 5) (SocketAddr.v4 5) (SocketAddr.v4 5)
      none []).2.1 (by decide),
   (claim_c6_monotone_clock c7Alloc 50 (SocketAddr.v4 5) (SocketAddr.v4 5) (SocketAddr.v4 5)
      none []).2.2.2.2.2.2.1 (by decide)⟩

theorem update_now_stale (a : Allocation) (now : Nat) (h : now ≤ a.last_now) :
    a.update_now now = a := by
  unfold Allocation.update_now
  rw [if_pos h]

theorem update_now_has_allocation (a : Allocation) (now : Nat) :
    (a.update_now now).has_allocation = a.has_allocation := by
  unfold Allocation.has_allocation
  rw [update_now_ip4_allocation, update_now_ip6_allocation]

theorem update_now_can_relay_to (a : Allocation) (now : Nat) (peer : SocketAddr) :
    (a.update_now now).can_relay_to peer = a.can_relay_to peer := by
  unfold Allocation.can_relay_to
  cases peer with
  | v4 x => rw [update_now_ip4_allocation]
  | v6 x => rw [update_now_ip6_allocation]

theorem filter_channel_bind_map_clock (l : List (Nat × SentReq)) (now : Nat) :
    ((l.map fun p =>
        (p.1, { p.2 with backoff := { p.2.backoff with clock := { now := now } } })).filter
          fun p => decide (p.2.message.method = Method.channelBind)).filterMap
        (fun p => p.2.message.get_xor_peer_address)
      = (l.filter fun p => decide (p.2.message.method = Method.channelBind)).filterMap
          fun p => p.2.message.get_xor_peer_address := by
  induction l with
  | nil => rfl
  | cons hd t ih =>
    simp only [List.map_cons]
    by_cases hm : hd.2.message.method = Method.channelBind
    · rw [List.filter_cons_of_pos, List.filter_cons_of_pos]
      · rw [List.filterMap_cons, List.filterMap_cons]
        dsimp only
        rw [ih]
      · exact decide_eq_true hm
      · exact decide_eq_true hm
    · rw [List.filter_cons_of_neg, List.filter_cons_of_neg]
      · exact ih
      · simpa using hm
      · simpa using hm

theorem update_now_in_flight_by_peer (a : Allocation) (now : Nat) (peer : SocketAddr) :
    (a.update_now now).channel_binding_in_flight_by_peer peer
      = a.channel_binding_in_flight_by_peer peer := by
  unfold Allocation.update_now
  split
  · rfl
  · unfold Allocation.channel_binding_in_flight_by_peer
    dsimp only
    rw [filter_channel_bind_map_clock]

theorem connected_none_after_new_channel (cb : ChannelBindings) (peer : SocketAddr)
    (now : Nat) (channel : Nat) (cb2 : ChannelBindings)
    (hconn : cb.connected_channel_to_peer peer now = none)
    (h : cb.new_channel_to_peer peer now = (some channel, cb2)) :
    cb2.connected_channel_to_peer peer now = none := by
  unfold ChannelBindings.new_channel_to_peer at h
  cases hbc : cb.bound_channel_to_peer peer now with
  | some m =>
    rw [hbc] at h
    injection h with h1 h2
    rw [← h2]
    exact hconn
  | none =>
    rw [hbc] at h
    cases hnc : cb.next_channel_number now with
    | none =>
      rw [hnc] at h
      injection h with h1 h2
      exact Option.noConfusion h1
    | some number =>
      rw [hnc] at h
      injection h with h1 h2
      unfold ChannelBindings.connected_channel_to_peer at hconn ⊢
      rw [← h2]
      dsimp only
      rw [List.find?_eq_none.mpr]
      · rfl
      · intro p hp
        have hp2 := mem_insertS (l := cb.inner) (by
          have : (p.1, p.2) = p := rfl
          rw [← this] at hp
          exact hp)
        rcases hp2 with ⟨hk, hv⟩ | hmem
        · rw [hv]
          simp [Channel.connected_to_peer]
        · have hnone := List.find?_eq_none.mp (by
            cases hf : cb.inner.find? fun q => q.2.connected_to_peer peer now with
            | none => rfl
            | some q => rw [hf] at hconn; simp at hconn)
          have := hnone (p.1, p.2) (by
            have he : (p.1, p.2) = p := rfl
            rw [he]
            exact hmem)
          simpa using this

theorem queue_ip4_allocation (a : Allocation) (dst : SocketAddr) (m : Message)
    (b : Option ExponentialBackoff) :
    (a.queue dst m b).2.ip4_allocation = a.ip4_allocation := by
  simp only [Allocation.queue]
  split <;> rfl

theorem queue_ip6_allocation (a : Allocation) (dst : SocketAddr) (m : Message)
    (b : Option ExponentialBackoff) :
    (a.queue dst m b).2.ip6_allocation = a.ip6_allocation := by
  simp only [Allocation.queue]
  split <;> rfl

theorem authenticate_and_queue_has_allocation (a : Allocation) (m : Message)
    (b : Option ExponentialBackoff) :
    (a.authenticate_and_queue m b).2.has_allocation = a.has_allocation := by
  unfold Allocation.authenticate_and_queue
  cases a.active_socket with
  | none => rfl
  | some dst =>
    cases a.credentials with
    | none => rfl
    | some c =>
      unfold Allocation.has_allocation
      rw [queue_ip4_allocation, queue_ip6_allocation]

/-- C4: calling bind_channel twice for the same peer and time, with no response
handled in between, queues exactly one CHANNEL-BIND transmit: the first call
appends a single CHANNEL-BIND message to the wire queue, and the second call
is a complete no-op because a channel binding to the peer is in flight. -/
theorem claim_c4_bind_channel_idempotent
    (a : Allocation) (peer : SocketAddr) (now : Nat) (dst : SocketAddr)
    (cred : Credentials) (channel : Nat) (cb2 : ChannelBindings)
    (hsusp : a.is_suspended = false)
    (hconn : a.channel_bindings.connected_channel_to_peer peer now = none)
    (hflight : a.channel_binding_in_flight_by_peer peer = false)
    (halloc : a.has_allocation = true)
    (hrelay : a.can_relay_to peer = true)
    (hchan : a.channel_bindings.new_channel_to_peer peer now = (some channel, cb2))
    (hact : a.active_socket = some dst)
    (hcred : a.credentials = some cred) :
    (∃ t, (a.bind_channel peer now).buffered_transmits = a.buffered_transmits ++ [t] ∧
      t.payload.method = Method.channelBind) ∧
    (a.bind_channel peer now).bind_channel peer now = a.bind_channel peer now := by
  have hact2 : (a.update_now now).active_socket = some dst := by
    rw [update_now_active_socket]; exact hact
  have hcred2 : (a.update_now now).credentials = some cred := by
    rw [update_now_credentials]; exact hcred
  have h1 : a.bind_channel peer now =
      (Allocation.authenticate_and_queue
        { a.update_now now with channel_bindings := cb2 }
        (make_channel_bind_request peer channel 0) none).2 := by
    unfold Allocation.bind_channel
    rw [if_neg (by rw [hsusp]; exact Bool.false_ne_true)]
    dsimp only
    rw [update_now_channel_bindings, hconn, update_now_in_flight_by_peer, hflight,
      update_now_has_allocation, halloc, update_now_can_relay_to, hrelay, hchan]
    simp only [Option.isSome_none, Bool.false_eq_true, Bool.not_true, if_false]
  have haq : a.bind_channel peer now =
      (Allocation.queue
        { (a.update_now now) with
          channel_bindings := cb2
          nextTid := a.nextTid + 1 } dst
        (authenticate (make_channel_bind_request peer channel 0) cred a.nextTid) none).2 := by
    rw [h1]
    unfold Allocation.authenticate_and_queue
    dsimp only
    rw [show ({ a.update_now now with channel_bindings := cb2 } : Allocation).active_socket
        = some dst from hact2]
    rw [show ({ a.update_now now with channel_bindings := cb2 } : Allocation).credentials
        = some cred from hcred2]
    rw [update_now_nextTid]
  have hqueue : a.bind_channel peer now =
      { a.update_now now with
        channel_bindings := cb2
        nextTid := a.nextTid + 1
        sent_requests := insertS a.nextTid
          (⟨dst, authenticate (make_channel_bind_request peer channel 0) cred a.nextTid,
            (a.update_now now).last_now, 1,
            ⟨⟨(a.update_now now).last_now⟩, (a.update_now now).last_now, 2,
              BACKOFF_MAX_ELAPSED⟩⟩ : SentReq)
          (a.update_now now).sent_requests
        buffered_transmits := (a.update_now now).buffered_transmits ++
          [⟨none, dst,
            authenticate (make_channel_bind_request peer channel 0) cred a.nextTid⟩] } := by
    rw [haq]
    unfold Allocation.queue
    dsimp only [Option.getD]
    rw [show (backoffNew ({ a.update_now now with
        channel_bindings := cb2
        nextTid := a.nextTid + 1 } : Allocation).last_now REQUEST_TIMEOUT).next_backoff
      = some (1, ⟨⟨(a.update_now now).last_now⟩, (a.update_now now).last_now, 2,
          BACKOFF_MAX_ELAPSED⟩) from by
      unfold backoffNew ExponentialBackoff.next_backoff
      dsimp only
      rw [if_neg (by omega)]
      rfl]
    rw [show (authenticate (make_channel_bind_request peer channel 0) cred
        a.nextTid).transactionId = a.nextTid from rfl]
  constructor
  · refine ⟨⟨none, dst,
      authenticate (make_channel_bind_request peer channel 0) cred a.nextTid⟩, ?_, ?_⟩
    · rw [hqueue]
      dsimp only
      rw [update_now_buffered_transmits]
    · rfl
  · have hlast : now ≤ (a.bind_channel peer now).last_now := by
      rw [bind_channel_last_now, if_neg (by rw [hsusp]; exact Bool.false_ne_true)]
      omega
    have hsusp2 : (a.bind_channel peer now).is_suspended = false := by
      have hha : (a.bind_channel peer now).has_allocation = true := by
        rw [h1, authenticate_and_queue_has_allocation]
        show (a.update_now now).has_allocation = true
        rw [update_now_has_allocation]
        exact halloc
      unfold Allocation.is_suspended
      rw [hha]
      rfl
    have hconn2 : (a.bind_channel peer now).channel_bindings.connected_channel_to_peer peer now
        = none := by
      rw [hqueue]
      dsimp only
      exact connected_none_after_new_channel a.channel_bindings peer now channel cb2 hconn hchan
    have hfl2 : (a.bind_channel peer now).channel_binding_in_flight_by_peer peer = true := by
      rw [hqueue]
      unfold Allocation.channel_binding_in_flight_by_peer
      dsimp only
      rw [List.any_eq_true]
      refine ⟨peer, List.mem_append_left _ ?_, by simp⟩
      rw [List.mem_filterMap]
      refine ⟨(a.nextTid,
        (⟨dst, authenticate (make_channel_bind_request peer channel 0) cred a.nextTid,
          (a.update_now now).last_now, 1,
          ⟨⟨(a.update_now now).last_now⟩, (a.update_now now).last_now, 2,
            BACKOFF_MAX_ELAPSED⟩⟩ : SentReq)), ?_, rfl⟩
      rw [List.mem_filter]
      exact ⟨insertS_mem_self _ _ _, by exact decide_eq_true rfl⟩
    obtain ⟨B, hB⟩ : ∃ B, a.bind_channel peer now = B := ⟨_, rfl⟩
    rw [hB] at hsusp2 hconn2 hfl2 hlast ⊢
    unfold Allocation.bind_channel
    rw [if_neg (by rw [hsusp2]; exact Bool.false_ne_true)]
    dsimp only
    rw [update_now_stale _ _ hlast, hconn2, hfl2]
    simp only [Option.isSome_none, Bool.false_eq_true, if_false, if_true]

/-- C4 witness: a live allocation binds a fresh peer once; the repeated call
changes nothing. -/
theorem claim_c4_witness :
    (∃ t, (c7Alloc.bind_channel (SocketAddr.v4 77) 5).buffered_transmits =
        c7Alloc.buffered_transmits ++ [t] ∧ t.payload.method = Method.channelBind) ∧
    (c7Alloc.bind_channel (SocketAddr.v4 77) 5).bind_channel (SocketAddr.v4 77) 5 =
      c7Alloc.bind_channel (SocketAddr.v4 77) 5 :=
  claim_c4_bind_channel_idempotent c7Alloc (SocketAddr.v4 77) 5 (SocketAddr.v4 9)
    ⟨1, 2, 3, none⟩ 16385 c4CB2 (by decide) (by decide) (by decide) (by decide) (by decide)
    (by decide) (by decide) (by decide)

theorem next_backoff_pos (b : ExponentialBackoff) (d : Nat) (b2 : ExponentialBackoff)
    (h : b.next_backoff = some (d, b2)) : 1 ≤ d := by
  unfold ExponentialBackoff.next_backoff at h
  split at h
  · exact Option.noConfusion h
  · injection h with h
    have h1 : max b.currentInterval 1 = d := congrArg Prod.fst h
    omega

theorem removeS_loopInv (now tid : Nat) (e : SentReq) (a : Allocation) (tid2 : Nat)
    (hne : tid ≠ tid2) (hInv : loopInv now tid e a) :
    loopInv now tid e { a with sent_requests := removeS tid2 a.sent_requests } := by
  obtain ⟨h1, h2, h3, h4, h5, h6⟩ := hInv
  refine ⟨mem_removeS hne h1, ?_, ?_, ?_, ?_, h6⟩
  · intro e2 hm
    exact h2 e2 (mem_of_mem_removeS hm).1
  · intro p hp
    exact h3 p (List.mem_filter.mp hp).1
  · intro p hp
    exact h4 p (List.mem_filter.mp hp).1
  · intro p hp
    exact h5 p (List.mem_filter.mp hp).1

theorem queue_loopInv (now tid : Nat) (e : SentReq) (a : Allocation) (dst : SocketAddr)
    (m : Message) (b : ExponentialBackoff)
    (hInv : loopInv now tid e a)
    (hk1 : m.transactionId ≠ tid)
    (hk2 : m.transactionId < a.nextTid) :
    loopInv now tid e (a.queue dst m (some b)).2 := by
  obtain ⟨h1, h2, h3, h4, h5, h6⟩ := hInv
  simp only [Allocation.queue, Option.getD]
  cases hb : b.next_backoff with
  | none => exact ⟨h1, h2, h3, h4, h5, h6⟩
  | some db =>
    dsimp only
    have hd := next_backoff_pos b db.1 db.2 (by rw [hb])
    refine ⟨mem_insertS_of_mem (Ne.symm hk1) h1, ?_, ?_, ?_, ?_, h6⟩
    · intro e2 hm
      rcases mem_insertS hm with ⟨hk, _⟩ | hmem
      · exact absurd hk.symm hk1
      · exact h2 e2 hmem
    · intro p hp
      rcases mem_insertS (l := a.sent_requests)
          (by rw [show (p.1, p.2) = p from rfl]; exact hp) with ⟨hk, _⟩ | hmem
      · show p.1 < a.nextTid
        omega
      · show p.1 < a.nextTid
        exact h3 (p.1, p.2) hmem
    · intro p hp hdue
      rcases mem_insertS (l := a.sent_requests)
          (by rw [show (p.1, p.2) = p from rfl]; exact hp) with ⟨hk, hv⟩ | hmem
      · exfalso
        rw [hv] at hdue
        unfold dueAt at hdue
        simp only [decide_eq_true_eq] at hdue
        omega
      · exact h4 (p.1, p.2) hmem hdue
    · intro p hp
      rcases mem_insertS (l := a.sent_requests)
          (by rw [show (p.1, p.2) = p from rfl]; exact hp) with ⟨hk, hv⟩ | hmem
      · rw [hv, hk]
      · exact h5 (p.1, p.2) hmem

theorem aq_loopInv (now tid : Nat) (e : SentReq) (a : Allocation)
    (m : Message) (b : ExponentialBackoff)
    (hInv : loopInv now tid e a) :
    loopInv now tid e (a.authenticate_and_queue m (some b)).2 := by
  obtain ⟨h1, h2, h3, h4, h5, h6⟩ := hInv
  unfold Allocation.authenticate_and_queue
  cases a.active_socket with
  | none => exact ⟨h1, h2, h3, h4, h5, h6⟩
  | some dst =>
    cases hc : a.credentials with
    | none => exact ⟨h1, h2, h3, h4, h5, h6⟩
    | some cred =>
      dsimp only
      have hfresh : (tid, e) ∈ a.sent_requests → tid < a.nextTid := fun hm => h3 (tid, e) hm
      refine queue_loopInv now tid e _ dst
        (authenticate m cred a.nextTid) b ⟨h1, h2, ?_, h4, h5, h6⟩ ?_ ?_
      · intro p hp
        show p.1 < a.nextTid + 1
        have := h3 p hp
        omega
      · have := hfresh h1
        show a.nextTid ≠ tid
        omega
      · show a.nextTid < a.nextTid + 1
        omega

theorem retransmitLoop_loopInv (now tid : Nat) (e : SentReq) :
    ∀ (fuel : Nat) (a : Allocation), loopInv now tid e a → dueAt now e = false →
    loopInv now tid e (Allocation.retransmitLoop now fuel a) := by
  intro fuel
  induction fuel with
  | zero => intro a hInv _; exact hInv
  | succ n ih =>
    intro a hInv hnd
    rw [Allocation.retransmitLoop]
    cases hf : a.sent_requests.find? fun p => dueAt now p.2 with
    | none => exact hInv
    | some te =>
      have hmem2 : te ∈ a.sent_requests := List.mem_of_find?_eq_some hf
      have hdue2 : dueAt now te.2 = true := by
        have h0 := List.find?_some hf
        simpa using h0
      have hne : tid ≠ te.1 := by
        intro hcontra
        have : te.2 = e := hInv.2.1 te.2 (by
          rw [hcontra, show (te.1, te.2) = te from rfl]
          exact hmem2)
        rw [this] at hdue2
        rw [hdue2] at hnd
        exact Bool.noConfusion hnd
      have hInv1 := removeS_loopInv now tid e a te.1 hne hInv
      dsimp only
      split
      · refine ih _ (queue_loopInv now tid e _ te.2.dst te.2.message te.2.backoff hInv1 ?_ ?_) hnd
        · rw [hInv.2.2.2.2.1 te ?_]
          · omega
          · exact hmem2
        · rw [hInv.2.2.2.2.1 te hmem2]
          exact hInv.2.2.1 te hmem2
      · rename_i hmeth
        have hnoref : ¬te.2.message.method = Method.refresh :=
          hInv.2.2.2.1 te hmem2 hdue2
        have haq := aq_loopInv now tid e
          { a with sent_requests := removeS te.1 a.sent_requests }
          te.2.message te.2.backoff hInv1
        rw [if_neg ?_]
        · exact ih _ haq hnd
        · intro hcontra
          have := hcontra
          rw [Bool.and_eq_true] at this
          have := this.2
          simp only [decide_eq_true_eq] at this
          exact hnoref this

theorem aq_memFresh (tid : Nat) (e : SentReq) (a : Allocation) (m : Message)
    (b : Option ExponentialBackoff) (h : memFresh tid e a) :
    memFresh tid e (a.authenticate_and_queue m b).2 := by
  obtain ⟨h1, h2⟩ := h
  have htid : tid < a.nextTid := h2 (tid, e) h1
  unfold Allocation.authenticate_and_queue
  cases a.active_socket with
  | none => exact ⟨h1, h2⟩
  | some dst =>
    cases a.credentials with
    | none => exact ⟨h1, h2⟩
    | some cred =>
      dsimp only
      unfold Allocation.queue
      dsimp only
      split
      · refine ⟨h1, ?_⟩
        intro p hp
        show p.1 < a.nextTid + 1
        have := h2 p hp
        omega
      · refine ⟨mem_insertS_of_mem (by show tid ≠ a.nextTid; omega) h1, ?_⟩
        intro p hp
        rcases mem_insertS (l := a.sent_requests)
            (by rw [show (p.1, p.2) = p from rfl]; exact hp) with ⟨hk, _⟩ | hmem
        · show p.1 < a.nextTid + 1
          have hk2 : p.1 = a.nextTid := hk
          omega
        · show p.1 < a.nextTid + 1
          have := h2 (p.1, p.2) hmem
          omega

theorem foldl_aq_memFresh (tid : Nat) (e : SentReq) (l : List (Nat × SocketAddr)) :
    ∀ a, memFresh tid e a →
    memFresh tid e (l.foldl (fun acc p =>
      (acc.authenticate_and_queue (make_channel_bind_request p.2 p.1 0) none).2) a) := by
  induction l with
  | nil => intro a h; exact h
  | cons hd t ih =>
    intro a h
    rw [List.foldl_cons]
    exact ih _ (aq_memFresh _ _ _ _ _ h)

theorem refresh_step_memFresh (b : Allocation) (now tid : Nat) (e : SentReq)
    (h : memFresh tid e b) :
    memFresh tid e (match b.refresh_allocation_at with
      | some refresh_at =>
        if decide (refresh_at ≤ now) && !b.refresh_in_flight then
          (b.authenticate_and_queue (make_refresh_request 0) none).2
        else b
      | none => b) := by
  split
  · split
    · exact aq_memFresh _ _ _ _ _ h
    · exact h
  · exact h

theorem expiry_step_noop (b : Allocation) (now : Nat)
    (h : ∀ rl, b.allocation_lifetime = some rl → now < rl.1 + rl.2) :
    (match b.allocation_expires_at with
      | some expires_at => if expires_at ≤ now then b.invalidate_allocation else b
      | none => b) = b := by
  cases hl : b.allocation_lifetime with
  | none =>
    simp only [Allocation.allocation_expires_at, hl, Option.map_none']
  | some rl =>
    simp only [Allocation.allocation_expires_at, hl, Option.map_some']
    rw [if_neg (by have := h rl hl; omega)]

theorem update_now_loopInv (a : Allocation) (now tid : Nat) (e : SentReq)
    (hmem : (tid, e) ∈ a.sent_requests)
    (huniq : ∀ e2, (tid, e2) ∈ a.sent_requests → e2 = e)
    (hnotdue : now - e.sentAt < e.backoffDur)
    (hfresh : ∀ p ∈ a.sent_requests, p.1 < a.nextTid)
    (hnorefdue : ∀ p ∈ a.sent_requests, dueAt now p.2 = true →
      ¬p.2.message.method = Method.refresh)
    (hkeymsg : ∀ p ∈ a.sent_requests, p.2.message.transactionId = p.1) :
    ∃ e1, loopInv now tid e1 (a.update_now now) ∧ dueAt now e1 = false ∧
      e1.message = e.message ∧ e1.dst = e.dst ∧ e1.sentAt = e.sentAt ∧
      e1.backoffDur = e.backoffDur := by
  have hdue0 : dueAt now e = false := by
    unfold dueAt
    simp only [decide_eq_false_iff_not]
    omega
  unfold Allocation.update_now
  split
  · rename_i h
    exact ⟨e, ⟨hmem, huniq, hfresh, hnorefdue, hkeymsg, h⟩, hdue0, rfl, rfl, rfl, rfl⟩
  · rename_i h
    refine ⟨{ e with backoff := { e.backoff with clock := { now := now } } },
      ⟨?_, ?_, ?_, ?_, ?_, ?_⟩, hdue0, rfl, rfl, rfl, rfl⟩
    · show ((tid : Nat), ({ e with backoff := { e.backoff with clock := { now := now } } } : SentReq)) ∈
        a.sent_requests.map fun p =>
          (p.1, { p.2 with backoff := { p.2.backoff with clock := { now := now } } })
      exact List.mem_map_of_mem _ hmem
    · intro e2 hm
      rcases List.mem_map.mp hm with ⟨q, hq, heq⟩
      injection heq with hq1 hq2
      have : q.2 = e := huniq q.2 (by rw [← hq1, show (q.1, q.2) = q from rfl]; exact hq)
      rw [← hq2, this]
    · intro p hp
      rcases List.mem_map.mp hp with ⟨q, hq, rfl⟩
      show q.1 < a.nextTid
      exact hfresh q hq
    · intro p hp hdue
      rcases List.mem_map.mp hp with ⟨q, hq, rfl⟩
      exact hnorefdue q hq hdue
    · intro p hp
      rcases List.mem_map.mp hp with ⟨q, hq, rfl⟩
      exact hkeymsg q hq
    · show now ≤ now
      exact le_refl now

/-- C5: handle_timeout retransmits an outstanding request only once the time
elapsed since its sent_at reaches its current per-attempt backoff: the
retransmission scan selects only entries whose backoff has elapsed, and any
outstanding entry that is not yet due survives handle_timeout untouched (same
message, destination, sent_at and backoff duration), provided the allocation
has not expired, no due entry is a REFRESH whose failure would abandon the
allocation, and the usual map invariants hold (unique fresh keys matching the
message transaction ids). -/
theorem claim_c5_no_early_retransmit
    (a : Allocation) (now tid : Nat) (e : SentReq)
    (hmem : (tid, e) ∈ a.sent_requests)
    (huniq : ∀ e2, (tid, e2) ∈ a.sent_requests → e2 = e)
    (hnotdue : now - e.sentAt < e.backoffDur)
    (hfresh : ∀ p ∈ a.sent_requests, p.1 < a.nextTid)
    (hnorefdue : ∀ p ∈ a.sent_requests, dueAt now p.2 = true →
      ¬p.2.message.method = Method.refresh)
    (hkeymsg : ∀ p ∈ a.sent_requests, p.2.message.transactionId = p.1)
    (hnoexp : ∀ rl, a.allocation_lifetime = some rl → now < rl.1 + rl.2) :
    (∀ q, a.sent_requests.find? (fun p => dueAt now p.2) = some q →
      q.2.backoffDur ≤ now - q.2.sentAt) ∧
    ∃ e2, (tid, e2) ∈ (a.handle_timeout now).sent_requests ∧
      e2.message = e.message ∧ e2.dst = e.dst ∧ e2.sentAt = e.sentAt ∧
      e2.backoffDur = e.backoffDur := by
  constructor
  · intro q hq
    have h0 := List.find?_some hq
    simp only [dueAt, decide_eq_true_eq] at h0
    exact h0
  · obtain ⟨e1, hInv, hdue1, hf1, hf2, hf3, hf4⟩ :=
      update_now_loopInv a now tid e hmem huniq hnotdue hfresh hnorefdue hkeymsg
    have hstep := expiry_step_noop (a.update_now now) now (by
      intro rl h'
      rw [update_now_allocation_lifetime] at h'
      exact hnoexp rl h')
    have hloop := retransmitLoop_loopInv now tid e1
      (a.update_now now).sent_requests.length (a.update_now now) hInv hdue1
    unfold Allocation.handle_timeout
    dsimp only
    rw [hstep]
    refine ⟨e1, ?_, hf1, hf2, hf3, hf4⟩
    exact (foldl_aq_memFresh tid e1 _ _
      (refresh_step_memFresh _ now tid e1 ⟨hloop.1, hloop.2.2.1⟩)).1

theorem claim_c5_witness :
    (∀ q, c5Alloc.sent_requests.find? (fun p => dueAt 3 p.2) = some q →
      q.2.backoffDur ≤ 3 - q.2.sentAt) ∧
    ∃ e2, (5, e2) ∈ (c5Alloc.handle_timeout 3).sent_requests ∧
      e2.message = c5Entry.message ∧ e2.dst = c5Entry.dst ∧ e2.sentAt = c5Entry.sentAt ∧
      e2.backoffDur = c5Entry.backoffDur :=
  claim_c5_no_early_retransmit c5Alloc 3 5 c5Entry (by decide)
    (by
      intro e2 h
      have h2 := List.mem_singleton.mp h
      rw [Prod.mk.injEq] at h2
      exact h2.2)
    (by decide) (by decide) (by decide) (by decide)
    (by
      intro rl h
      have h0 : some ((0 : Nat), (600 : Nat)) = some rl := h
      rw [← Option.some.inj h0]
      decide)

theorem make_binding_unauth (tid : Nat) :
    (make_binding_request tid).is_authenticated = false := rfl

theorem aq_none (a : Allocation) (m : Message) (b : Option ExponentialBackoff)
    (h : a.credentials = none) : a.authenticate_and_queue m b = (false, a) := by
  unfold Allocation.authenticate_and_queue
  rw [h]
  cases a.active_socket <;> rfl

theorem queue_C8Inv (orig : List Transmit) (a : Allocation) (dst : SocketAddr)
    (m : Message) (b : Option ExponentialBackoff) (h : C8Inv orig a)
    (hm : m.is_authenticated = false) : C8Inv orig (a.queue dst m b).2 := by
  obtain ⟨h1, ⟨ts, hts, hall⟩, h3⟩ := h
  unfold Allocation.queue
  dsimp only
  split
  · exact ⟨h1, ⟨ts, hts, hall⟩, h3⟩
  · refine ⟨h1, ⟨ts ++ [{ src := none, dst := dst, payload := m }], ?_, ?_⟩, ?_⟩
    · show a.buffered_transmits ++ [{ src := none, dst := dst, payload := m }]
        = orig ++ (ts ++ [{ src := none, dst := dst, payload := m }])
      rw [hts, List.append_assoc]
    · intro t ht
      rcases List.mem_append.mp ht with h4 | h4
      · exact hall t h4
      · rw [List.mem_singleton.mp h4]
        exact hm
    · intro p hp hbm
      obtain ⟨pk, pv⟩ := p
      rcases mem_insertS (l := a.sent_requests) hp with ⟨hk, hv⟩ | hmem
      · rw [hv]
        exact hm
      · exact h3 (pk, pv) hmem hbm

theorem aq_C8Inv (orig : List Transmit) (a : Allocation) (m : Message)
    (b : Option ExponentialBackoff) (h : C8Inv orig a) :
    C8Inv orig (a.authenticate_and_queue m b).2 := by
  rw [aq_none a m b h.1]
  exact h

theorem update_now_C8Inv (orig : List Transmit) (a : Allocation) (now : Nat)
    (h : C8Inv orig a) : C8Inv orig (a.update_now now) := by
  obtain ⟨h1, h2, h3⟩ := h
  unfold Allocation.update_now
  split
  · exact ⟨h1, h2, h3⟩
  · refine ⟨h1, h2, ?_⟩
    intro p hp hbm
    rcases List.mem_map.mp hp with ⟨q, hq, rfl⟩
    exact h3 q hq hbm

theorem invalidate_C8Inv (orig : List Transmit) (a : Allocation)
    (h : C8Inv orig a) : C8Inv orig a.invalidate_allocation := by
  obtain ⟨h1, h2, h3⟩ := h
  refine ⟨h1, h2, ?_⟩
  intro p hp hbm
  simp [Allocation.invalidate_allocation] at hp

theorem sbr_C8Inv (orig : List Transmit) (a : Allocation) (h : C8Inv orig a) :
    C8Inv orig a.send_binding_requests := by
  have h1 : C8Inv orig (match a.server.as_v4 with
      | some v4 => (Allocation.queue { a with nextTid := a.nextTid + 1 } (SocketAddr.v4 v4)
          (make_binding_request a.nextTid) none).2
      | none => a) := by
    split
    · exact queue_C8Inv _ _ _ _ _ h (make_binding_unauth _)
    · exact h
  unfold Allocation.send_binding_requests
  dsimp only
  split
  · exact queue_C8Inv _ _ _ _ _ h1 (make_binding_unauth _)
  · exact h1

theorem retransmitLoop_C8Inv (orig : List Transmit) (now : Nat) :
    ∀ (fuel : Nat) (a : Allocation), C8Inv orig a →
      C8Inv orig (Allocation.retransmitLoop now fuel a) := by
  intro fuel
  induction fuel with
  | zero => intro a h; exact h
  | succ n ih =>
    intro a h
    rw [Allocation.retransmitLoop]
    cases hf : a.sent_requests.find? (fun p => dueAt now p.2) with
    | none => exact h
    | some te =>
      dsimp only
      have hmem : te ∈ a.sent_requests := List.mem_of_find?_eq_some hf
      have hrem : C8Inv orig { a with sent_requests := removeS te.1 a.sent_requests } := by
        obtain ⟨h1, h2, h3⟩ := h
        refine ⟨h1, h2, ?_⟩
        intro p hp hbm
        obtain ⟨pk, pv⟩ := p
        exact h3 (pk, pv) (mem_of_mem_removeS hp).1 hbm
      split
      · rename_i hb
        exact ih _ (queue_C8Inv _ _ _ _ _ hrem (h.2.2 te hmem hb))
      · rw [aq_none { a with sent_requests := removeS te.1 a.sent_requests }
          te.2.message (some te.2.backoff) hrem.1]
        dsimp only
        split
        · exact ih _ (invalidate_C8Inv _ _ (by exact hrem))
        · exact ih _ hrem

theorem bind_channel_C8Inv (orig : List Transmit) (a : Allocation) (peer : SocketAddr)
    (now : Nat) (h : C8Inv orig a) : C8Inv orig (a.bind_channel peer now) := by
  unfold Allocation.bind_channel
  split
  · exact h
  · dsimp only
    have hu := update_now_C8Inv orig a now h
    split
    · exact hu
    · split
      · exact hu
      · split
        · exact hu
        · split
          · exact hu
          · split
            · exact hu
            · exact aq_C8Inv _ _ _ _ (by exact hu)

theorem drain_C8Inv (orig : List Transmit) (now : Nat) :
    ∀ (fuel : Nat) (a : Allocation), C8Inv orig a →
      C8Inv orig (Allocation.drainBufferedBindings now fuel a) := by
  intro fuel
  induction fuel with
  | zero => intro a h; exact h
  | succ n ih =>
    intro a h
    unfold Allocation.drainBufferedBindings
    split
    · exact h
    · exact ih _ (bind_channel_C8Inv orig _ _ now (by exact h))

theorem handleError_C8Inv (orig : List Transmit) (a : Allocation)
    (req msg : Message) (code : Nat) (h : C8Inv orig a) :
    C8Inv orig (a.handleErrorResponse req msg code).2 := by
  obtain ⟨h1, h2, h3⟩ := h
  unfold Allocation.handleErrorResponse
  split
  · exact invalidate_C8Inv _ _ ⟨rfl, h2, h3⟩
  · split
    · rw [h1]
      exact ⟨h1, h2, h3⟩
    · split
      · dsimp only
        have hinv := invalidate_C8Inv orig a ⟨h1, h2, h3⟩
        split
        · exact aq_C8Inv _ _ _ _ hinv
        · exact aq_C8Inv _ _ _ _ hinv
        · have hx := aq_C8Inv orig a.invalidate_allocation (make_allocate_request 0) none hinv
          exact ⟨hx.1, hx.2.1, hx.2.2⟩
        · exact hinv
      · split
        · exact ⟨h1, h2, h3⟩
        · split
          · exact ⟨h1, h2, h3⟩
          · split
            · exact ⟨h1, h2, h3⟩
            · split
              · exact ⟨h1, h2, h3⟩
              · exact ⟨h1, h2, h3⟩
          · exact ⟨h1, h2, h3⟩

theorem handleSuccess_C8Inv (orig : List Transmit) (a : Allocation)
    (dst localAddr : SocketAddr) (req msg : Message) (now : Nat) (h : C8Inv orig a) :
    C8Inv orig (a.handleSuccessResponse dst localAddr req msg now).2 := by
  obtain ⟨h1, h2, h3⟩ := h
  unfold Allocation.handleSuccessResponse
  split
  · dsimp only
    cases dst with
    | v4 x =>
      split
      · exact ⟨h1, h2, h3⟩
      · dsimp only
        split
        · exact aq_C8Inv _ _ _ _ ⟨h1, h2, h3⟩
        · exact aq_C8Inv _ _ _ _ ⟨h1, h2, h3⟩
    | v6 x =>
      split
      · exact ⟨h1, h2, h3⟩
      · dsimp only
        split
        · exact aq_C8Inv _ _ _ _ ⟨h1, h2, h3⟩
        · exact aq_C8Inv _ _ _ _ ⟨h1, h2, h3⟩
  · split
    · exact ⟨h1, h2, h3⟩
    · dsimp only
      split
      · exact ⟨h1, h2, h3⟩
      · dsimp only
        exact drain_C8Inv orig now _ _ ⟨h1, h2, h3⟩
  · split
    · exact ⟨h1, h2, h3⟩
    · split
      · exact aq_C8Inv _ _ _ _ ⟨h1, h2, h3⟩
      · exact ⟨h1, h2, h3⟩
  · split
    · exact ⟨h1, h2, h3⟩
    · exact ⟨h1, h2, h3⟩
  · exact ⟨h1, h2, h3⟩

theorem removeS_C8Inv (orig : List Transmit) (b : Allocation) (key : Nat)
    (h : C8Inv orig b) :
    C8Inv orig { b with sent_requests := removeS key b.sent_requests } := by
  obtain ⟨h1, h2, h3⟩ := h
  refine ⟨h1, h2, ?_⟩
  intro p hp hbm
  obtain ⟨pk, pv⟩ := p
  exact h3 (pk, pv) (mem_of_mem_removeS hp).1 hbm

theorem handleInput_C8Inv (orig : List Transmit) (a : Allocation)
    (sender localAddr : SocketAddr) (pkt : Option Message) (now : Nat)
    (h : C8Inv orig a) : C8Inv orig (a.handle_input sender localAddr pkt now).2 := by
  unfold Allocation.handle_input
  dsimp only
  have hu := update_now_C8Inv orig a now h
  split
  · exact hu
  · split
    · exact hu
    · split
      · exact hu
      · split
        · exact handleError_C8Inv _ _ _ _ _ (removeS_C8Inv _ _ _ hu)
        · split
          · exact removeS_C8Inv _ _ _ hu
          · exact handleSuccess_C8Inv _ _ _ _ _ _ _ (removeS_C8Inv _ _ _ hu)

theorem foldl_aq_C8Inv (orig : List Transmit) (l : List (Nat × SocketAddr)) :
    ∀ a, C8Inv orig a →
    C8Inv orig (l.foldl (fun acc p =>
      (acc.authenticate_and_queue (make_channel_bind_request p.2 p.1 0) none).2) a) := by
  induction l with
  | nil => intro a h; exact h
  | cons hd t ih =>
    intro a h
    rw [List.foldl_cons]
    exact ih _ (aq_C8Inv _ _ _ _ h)

theorem handleTimeout_C8Inv (orig : List Transmit) (a : Allocation) (now : Nat)
    (h : C8Inv orig a) : C8Inv orig (a.handle_timeout now) := by
  have hu := update_now_C8Inv orig a now h
  unfold Allocation.handle_timeout
  dsimp only
  refine foldl_aq_C8Inv orig _ _ ?_
  split
  · split
    · refine aq_C8Inv _ _ _ _ ?_
      refine retransmitLoop_C8Inv orig now _ _ ?_
      split
      · split
        · exact invalidate_C8Inv _ _ hu
        · exact hu
      · exact hu
    · refine retransmitLoop_C8Inv orig now _ _ ?_
      split
      · split
        · exact invalidate_C8Inv _ _ hu
        · exact hu
      · exact hu
  · refine retransmitLoop_C8Inv orig now _ _ ?_
    split
    · split
      · exact invalidate_C8Inv _ _ hu
      · exact hu
    · exact hu

theorem refresh_C8Inv (orig : List Transmit) (a : Allocation) (now : Nat)
    (h : C8Inv orig a) : C8Inv orig (a.refresh now) := by
  unfold Allocation.refresh
  dsimp only
  have hu := update_now_C8Inv orig a now h
  split
  · exact hu
  · split
    · exact sbr_C8Inv orig _ (by exact hu)
    · exact aq_C8Inv _ _ _ _ hu

/-- C8: an allocation without credentials never queues an authenticated request:
authenticate_and_queue returns false and leaves the state untouched, and each of
refresh, bind_channel, handle_timeout (retransmission) and handle_input
(error-response recovery) keeps credentials absent and appends only
unauthenticated transmits (no MESSAGE-INTEGRITY attribute) to the wire queue,
assuming every outstanding BINDING entry is itself unauthenticated (as produced
by send_binding_requests). -/
theorem claim_c8_no_credentials_no_auth_queue
    (a : Allocation) (m : Message) (b : Option ExponentialBackoff)
    (peer sender localAddr : SocketAddr) (pkt : Option Message) (now : Nat)
    (hcred : a.credentials = none)
    (hbind : ∀ p ∈ a.sent_requests, p.2.message.method = Method.binding →
      p.2.message.is_authenticated = false) :
    a.authenticate_and_queue m b = (false, a) ∧
    ((a.refresh now).credentials = none ∧
      ∃ ts, (a.refresh now).buffered_transmits = a.buffered_transmits ++ ts ∧
        ∀ t ∈ ts, t.payload.is_authenticated = false) ∧
    ((a.bind_channel peer now).credentials = none ∧
      ∃ ts, (a.bind_channel peer now).buffered_transmits = a.buffered_transmits ++ ts ∧
        ∀ t ∈ ts, t.payload.is_authenticated = false) ∧
    ((a.handle_timeout now).credentials = none ∧
      ∃ ts, (a.handle_timeout now).buffered_transmits = a.buffered_transmits ++ ts ∧
        ∀ t ∈ ts, t.payload.is_authenticated = false) ∧
    ((a.handle_input sender localAddr pkt now).2.credentials = none ∧
      ∃ ts, (a.handle_input sender localAddr pkt now).2.buffered_transmits
          = a.buffered_transmits ++ ts ∧
        ∀ t ∈ ts, t.payload.is_authenticated = false) := by
  have h0 : C8Inv a.buffered_transmits a :=
    ⟨hcred, ⟨[], by simp, by intro t ht; simp at ht⟩, hbind⟩
  refine ⟨aq_none a m b hcred, ?_, ?_, ?_, ?_⟩
  · have hr := refresh_C8Inv a.buffered_transmits a now h0
    exact ⟨hr.1, hr.2.1⟩
  · have hr := bind_channel_C8Inv a.buffered_transmits a peer now h0
    exact ⟨hr.1, hr.2.1⟩
  · have hr := handleTimeout_C8Inv a.buffered_transmits a now h0
    exact ⟨hr.1, hr.2.1⟩
  · have hr := handleInput_C8Inv a.buffered_transmits a sender localAddr pkt now h0
    exact ⟨hr.1, hr.2.1⟩

theorem claim_c8_witness :
    c8Alloc.authenticate_and_queue c2Msg none = (false, c8Alloc) ∧
    ((c8Alloc.refresh 10).credentials = none ∧
      ∃ ts, (c8Alloc.refresh 10).buffered_transmits = c8Alloc.buffered_transmits ++ ts ∧
        ∀ t ∈ ts, t.payload.is_authenticated = false) ∧
    ((c8Alloc.bind_channel (SocketAddr.v4 3) 10).credentials = none ∧
      ∃ ts, (c8Alloc.bind_channel (SocketAddr.v4 3) 10).buffered_transmits
          = c8Alloc.buffered_transmits ++ ts ∧
        ∀ t ∈ ts, t.payload.is_authenticated = false) ∧
    ((c8Alloc.handle_timeout 10).credentials = none ∧
      ∃ ts, (c8Alloc.handle_timeout 10).buffered_transmits
          = c8Alloc.buffered_transmits ++ ts ∧
        ∀ t ∈ ts, t.payload.is_authenticated = false) ∧
    ((c8Alloc.handle_input (SocketAddr.v4 7) (SocketAddr.v4 8)
        (some c2Msg) 10).2.credentials = none ∧
      ∃ ts, (c8Alloc.handle_input (SocketAddr.v4 7) (SocketAddr.v4 8)
            (some c2Msg) 10).2.buffered_transmits = c8Alloc.buffered_transmits ++ ts ∧
        ∀ t ∈ ts, t.payload.is_authenticated = false) :=
  claim_c8_no_credentials_no_auth_queue c8Alloc c2Msg none (SocketAddr.v4 3)
    (SocketAddr.v4 7) (SocketAddr.v4 8) (some c2Msg) 10 (by decide) (by decide)
